import Mathlib

/-!
Verification development for the caching subsystem of `python3-utils`:
a shallow embedding of `src/hashing.py` (content hasher and compact
base-64 integer codec) and `src/cache.py` (serialization backend and the
`simple_caching` memoization decorator), together with theorems settling
the specification's claims about them.

Modelling conventions:
* Python integers are `Int`/`Nat`; Python strings are `String`; byte
  strings written to files are `List Char`.
* Fallible Python code returns `Except`/`Option`; a raised exception is
  an `Except.error` (resp. `Option.none`) carrying the exception kind.
* The MD5 digest used by `hash_obj` is abstracted as a parameter
  `md5 : String → Nat`: every property claimed of the hasher
  (order-independence, sentinel values, raised errors) is independent of
  the digest internals, so the theorems quantify over the digest.
-/

/-! ## `src/hashing.py` — compact base-64 codec

Source:
```
SYMBOLS = '0123456789abcdefghujklmnopqrstuvwxyzABCDEFGHUJKLMNOPQRSTUVWXYZ_='
NEG_SYMBOL = '-'
BASE = len(SYMBOLS)
SYMBOLS_VALUE = {s: i for i, s in enumerate(SYMBOLS)}
```
Note that the source alphabet really does contain `u` (and `U`) twice and
no `i`/`I`; the embedding reproduces it verbatim. -/

def SYMBOLS : List Char :=
  "0123456789abcdefghujklmnopqrstuvwxyzABCDEFGHUJKLMNOPQRSTUVWXYZ_=".data

def NEG_SYMBOL : Char := '-'

def BASE : Nat := SYMBOLS.length

/-- `SYMBOLS_VALUE[c]`.  The Python dict comprehension lets a later index
overwrite an earlier one for a duplicated character, so the value is the
*last* index of `c` in `SYMBOLS`; a character that does not occur raises
`KeyError`, modelled by `Option.none`. -/
def SYMBOLS_VALUE (c : Char) : Option Nat :=
  ((List.range BASE).filter (fun i => SYMBOLS.getD i ' ' = c)).getLast?

/-- The `while` loop of `encode_compact64`: repeatedly `divmod` by `BASE`,
appending `SYMBOLS[remainder]` (least-significant digit first, as in the
source, which reverses at the end).  The loop runs `value` down strictly
(`value / BASE < value` whenever another iteration is due), so structural
recursion on a fuel of `value + 1` iterations computes the same list as
the `while True` loop. -/
def encodeLoopF : Nat → Nat → List Char
  | 0, _ => []
  | f + 1, value =>
    SYMBOLS.getD (value % BASE) ' ' ::
      (if value / BASE = 0 then [] else encodeLoopF f (value / BASE))

def encodeLoop (value : Nat) : List Char := encodeLoopF (value + 1) value

/-- `encode_compact64(value)`.  For a negative value the source prepends
`NEG_SYMBOL` and recurses on `-value`, which then takes the non-negative
loop; that single recursion step is inlined here. -/
def encode_compact64 (value : Int) : List Char :=
  if value < 0 then NEG_SYMBOL :: (encodeLoop (-value).toNat).reverse
  else (encodeLoop value.toNat).reverse

/-- `decode_compact64(value)`: leading `NEG_SYMBOL`s negate the decoded
tail; otherwise sum `SYMBOLS_VALUE[symbol] * BASE**i` over the reversed
string.  `Option.none` models the `IndexError` on an empty string and the
`KeyError` on a character outside the alphabet. -/
def decode_compact64 : List Char → Option Int
  | [] => Option.none
  | c :: rest =>
    if c = NEG_SYMBOL then (decode_compact64 rest).map (fun n => -n)
    else
      ((c :: rest).reverse.mapM SYMBOLS_VALUE).map (fun ds =>
        Int.ofNat ((ds.enum.foldl (fun acc p => acc + p.2 * BASE ^ p.1) 0)))

/-! ## `src/hashing.py` — `hash_obj`

The Python values `hash_obj` can receive are embedded as `PyObj`:
numbers, strings, `None`, lists / tuples / sets, dicts (with string keys,
as required by the `json.dumps` canonicalisation step), and `obj`, an
arbitrary object with no canonical form (the "unhashable" case).
Python dicts cannot contain a duplicate key, so a `dict` assoc list is
meaningful when its keys are `Nodup`; theorems assume that where needed. -/

inductive PyObj where
  | num (n : Int)
  | str (s : String)
  | none
  | list (xs : List PyObj)
  | tuple (xs : List PyObj)
  | set (xs : List PyObj)
  | dict (xs : List (String × PyObj))
  | obj

/-- `'[error] obj can not be hashed'` — the `TypeError` message. -/
def unhashMsg : String := "[error] obj can not be hashed"

def PyObj.isNum : PyObj → Bool
  | .num _ => true
  | _ => false

def PyObj.isStr : PyObj → Bool
  | .str _ => true
  | _ => false

def toNum : PyObj → Int
  | .num n => n
  | _ => 0

def toStrv : PyObj → String
  | .str s => s
  | _ => ""

/-- All elements are numbers: the elements are pairwise orderable and
Python's `sorted` sorts them by numeric value. -/
def allNum (xs : List PyObj) : Bool := xs.all PyObj.isNum

/-- All elements are strings: pairwise orderable, sorted lexicographically
by code point (which is exactly `String`'s linear order). -/
def allStr (xs : List PyObj) : Bool := xs.all PyObj.isStr

/-- `json.dumps` of a list of integer hashes, e.g. `[12, 3]`. -/
def dumpHashList (hs : List Nat) : String :=
  "[" ++ String.intercalate ", " (hs.map toString) ++ "]"

/-- `json.dumps(·, sort_keys=True)` of an ordered dict of integer hashes
whose keys are already sorted, e.g. `\x7b"a": 12, "b": 3\x7d`. -/
def dumpHashDict (ps : List (String × Nat)) : String :=
  "\x7b" ++
    String.intercalate ", " (ps.map (fun p => "\"" ++ p.1 ++ "\": " ++ toString p.2)) ++
    "\x7d"

/-- The sequence branch of `hash_obj` (for `list` / `tuple` / `set`).
`sorted(obj)` succeeds exactly when the elements are pairwise orderable —
modelled as: all numbers, or all strings — and then yields the canonical
nondecreasing order; otherwise the `TypeError` is caught and the original
order kept (`fallback`, the element-wise hash of the unsorted list).
In the two sorted branches every element is a scalar, so the recursive
`hash_obj(elem)` calls are inlined to their scalar values (`md5 (toString n)`
for a number, `md5 s` for a string) — see `hash_obj_num` / `hash_obj_str`
below, which prove the inlining exact. -/
def hashSeqWith (md5 : String → Nat) (xs : List PyObj)
    (fallback : Except String (List Nat)) : Except String Nat :=
  if allNum xs then
    .ok (md5 (dumpHashList
      (((xs.map toNum).insertionSort (· ≤ ·)).map (fun n => md5 (toString n)))))
  else if allStr xs then
    .ok (md5 (dumpHashList
      (((xs.map toStrv).insertionSort (· ≤ ·)).map md5)))
  else
    fallback.map (fun hs => md5 (dumpHashList hs))

/-- The mapping branch of `hash_obj`: iterate the sorted keys, pairing each
key with the hash of its value, and digest the canonical JSON dump.
`pairs` is the element-wise hash of the assoc list in original order;
looking the sorted keys up in it reproduces the source's
`for k in sorted(obj.keys()): outobj[k] = hash_obj(obj[k])` for any dict
(whose keys are necessarily distinct).  Hashing the values in original
rather than sorted order is observable only through which error surfaces,
and `hash_obj` has a single error message (`unhashMsg`). -/
def hashDictWith (md5 : String → Nat) (xs : List (String × PyObj))
    (pairs : Except String (List (String × Nat))) : Except String Nat :=
  pairs.map (fun hps =>
    md5 (dumpHashDict
      (((xs.map Prod.fst).insertionSort (· ≤ ·)).map
        (fun k => (k, ((hps.lookup k).getD 0))))))

mutual

/-- `hash_obj(obj, ignore_unhashable=False)` from `src/hashing.py`.
Numbers are stringified; `None` becomes `'null'`; strings are digested
directly; mappings and sequences are canonicalised recursively — note the
recursive calls `hash_obj(obj[k])` / `hash_obj(elem)` use the *default*
`ignore_unhashable=False`; an unhashable object yields the sentinel `0`
when `ignore_unhashable` is set and otherwise raises the `TypeError`
`unhashMsg`. -/
def hash_obj (md5 : String → Nat) (ignore_unhashable : Bool) : PyObj → Except String Nat
  | .num n => .ok (md5 (toString n))
  | .str s => .ok (md5 s)
  | .none => .ok (md5 "null")
  | .list xs => hashSeqWith md5 xs (hashElems md5 xs)
  | .tuple xs => hashSeqWith md5 xs (hashElems md5 xs)
  | .set xs => hashSeqWith md5 xs (hashElems md5 xs)
  | .dict xs => hashDictWith md5 xs (hashPairs md5 xs)
  | .obj => if ignore_unhashable then .ok 0 else .error unhashMsg
termination_by o => sizeOf o

/-- `[hash_obj(elem) for elem in ...]`, stopping at the first raised error. -/
def hashElems (md5 : String → Nat) : List PyObj → Except String (List Nat)
  | [] => .ok []
  | x :: xs => do
    let h ← hash_obj md5 false x
    let t ← hashElems md5 xs
    .ok (h :: t)
termination_by xs => sizeOf xs

/-- Element-wise hash of a dict's values (keys kept), stopping at the
first raised error. -/
def hashPairs (md5 : String → Nat) : List (String × PyObj) → Except String (List (String × Nat))
  | [] => .ok []
  | (k, v) :: ps => do
    let h ← hash_obj md5 false v
    let t ← hashPairs md5 ps
    .ok ((k, h) :: t)
termination_by ps => sizeOf ps

end

/-- A concrete digest stand-in used to instantiate witness statements. -/
def md5c : String → Nat := String.length

/-- The hash of `x` when defined (used to state the element-wise normal
forms of `hashElems` / `hashPairs`). -/
def hashValD (md5 : String → Nat) (x : PyObj) : Nat :=
  (hash_obj md5 false x).toOption.getD 0

/-! ## `src/cache.py` — serialization backend

Values that can pass through the cache's serialization formats are
embedded as the mutually inductive `PyData` / `PyList` / `PyPairs`
(Python `None`, booleans, integers, strings, lists, string-keyed dicts)
plus `array`, a one-dimensional homogeneous numeric array (the `numpy`
payload; floats are outside the embedding).  The stdlib codecs
(`json.dumps`/`loads`, `pickle.dumps`/`loads`, `numpy.save`/`load`,
`gzip`) are not part of this repository, so they are modelled: one exact
text rendering `dumpVal` with a verified inverse parser plays the role of
the serialized byte string for all three formats (the json writer
restricts its domain to JSON-compatible data, i.e. no arrays; the binary
formats take the full domain resp. arrays only), and the compressor is
modelled as an invertible header-tagged wrapping.  Only the domains and
the exact round trip of these codecs are observable to `cache.py`, never
their concrete bytes. -/

mutual

inductive PyData where
  | none
  | bool (b : Bool)
  | int (n : Int)
  | str (s : String)
  | list (xs : PyList)
  | dict (xs : PyPairs)
  | array (xs : List Int)

inductive PyList where
  | nil
  | cons (hd : PyData) (tl : PyList)

inductive PyPairs where
  | nil
  | cons (k : String) (v : PyData) (tl : PyPairs)

end

/-- Decimal digits of `n`, least significant first, as the `while` loop
emits them; structural fuel of `n + 1` iterations always suffices. -/
def natDigitsF : Nat → Nat → List Char
  | 0, _ => []
  | f + 1, n =>
    Char.ofNat (48 + n % 10) :: (if n / 10 = 0 then [] else natDigitsF f (n / 10))

/-- Decimal rendering of a natural number (`str(n)` in Python). -/
def natChars (n : Nat) : List Char := (natDigitsF (n + 1) n).reverse

/-- Decimal rendering of an integer (`str(n)` in Python). -/
def intChars (n : Int) : List Char :=
  if n < 0 then '-' :: natChars n.natAbs else natChars n.toNat

/-- Value of a most-significant-first digit run. -/
def charsVal (cs : List Char) : Nat :=
  cs.foldl (fun a c => a * 10 + (c.toNat - 48)) 0

/-- String-content escaping: the quote and the escape character are
escaped, everything else is carried verbatim. -/
def escChar (c : Char) : List Char :=
  if c = '"' then ['\\', '"']
  else if c = '\\' then ['\\', '\\']
  else [c]

def escList : List Char → List Char
  | [] => []
  | c :: cs => escChar c ++ escList cs

mutual

/-- Parse escaped string content up to (and consuming) the closing quote;
returns the unescaped content and the remaining input. -/
def parseStrAux : List Char → Option (List Char × List Char)
  | [] => Option.none
  | c :: rest =>
    if c = '"' then some ([], rest)
    else if c = '\\' then parseStrEsc rest
    else (parseStrAux rest).map (fun r => (c :: r.1, r.2))

/-- Continuation after an escape character. -/
def parseStrEsc : List Char → Option (List Char × List Char)
  | [] => Option.none
  | e :: rest2 =>
    if e = '"' ∨ e = '\\' then (parseStrAux rest2).map (fun r => (e :: r.1, r.2))
    else Option.none

end

/-- Parse an optionally signed decimal integer. -/
def parseInt (cs : List Char) : Option (Int × List Char) :=
  if cs.head? = some '-' then
    let ds := cs.tail.takeWhile Char.isDigit
    if ds = [] then Option.none
    else some (-(charsVal ds : Int), cs.tail.dropWhile Char.isDigit)
  else
    let ds := cs.takeWhile Char.isDigit
    if ds = [] then Option.none
    else some ((charsVal ds : Int), cs.dropWhile Char.isDigit)

/-- Does the input start like a number? -/
def isIntStart : List Char → Bool
  | [] => false
  | c :: _ => c.isDigit || c = '-'

/-- The remaining input does not start with a digit (every delimiter that
can follow a rendered number in the grammar satisfies this). -/
def noDigitStart : List Char → Bool
  | [] => true
  | c :: _ => !c.isDigit

/-- Array elements, including the closing `])`. -/
def dumpInts : List Int → List Char
  | [] => [']', ')']
  | [n] => intChars n ++ [']', ')']
  | n :: tl => intChars n ++ ',' :: ' ' :: dumpInts tl

mutual

/-- The serialized text of a value (JSON syntax with default `", "` and
`": "` separators; arrays render as `array([...])`, which only the binary
formats emit or accept). -/
def dumpVal : PyData → List Char
  | .none => 'n' :: 'u' :: 'l' :: 'l' :: []
  | .bool true => 't' :: 'r' :: 'u' :: 'e' :: []
  | .bool false => 'f' :: 'a' :: 'l' :: 's' :: 'e' :: []
  | .int n => intChars n
  | .str s => '"' :: (escList s.data ++ ['"'])
  | .list xs => '[' :: dumpItems xs
  | .dict xs => '\x7b' :: dumpMembers xs
  | .array xs => 'a' :: 'r' :: 'r' :: 'a' :: 'y' :: '(' :: '[' :: dumpInts xs

/-- List elements, `", "`-separated, including the closing bracket. -/
def dumpItems : PyList → List Char
  | .nil => [']']
  | .cons hd .nil => dumpVal hd ++ [']']
  | .cons hd tl => dumpVal hd ++ ',' :: ' ' :: dumpItems tl

/-- Dict members, `"key": value` with `", "` separators, including the
closing brace. -/
def dumpMembers : PyPairs → List Char
  | .nil => ['\x7d']
  | .cons k v .nil => '"' :: (escList k.data ++ '"' :: ':' :: ' ' :: (dumpVal v ++ ['\x7d']))
  | .cons k v tl =>
    '"' :: (escList k.data ++ '"' :: ':' :: ' ' :: (dumpVal v ++ ',' :: ' ' :: dumpMembers tl))

end

def needInts' : List Int → Nat
  | [] => 1
  | _ :: tl => 1 + needInts' tl

mutual

/-- Parser fuel that certainly suffices for a given value (one unit per
step the mutually recursive parsers descend without consuming input). -/
def needVal : PyData → Nat
  | .list xs => 1 + needItems xs
  | .dict xs => 1 + needMembers xs
  | .array xs => 1 + needInts' xs
  | _ => 1

def needItems : PyList → Nat
  | .nil => 1
  | .cons hd tl => 1 + max (needVal hd) (needItems tl)

def needMembers : PyPairs → Nat
  | .nil => 1
  | .cons _ v tl => 1 + max (needVal v) (needMembers tl)

end

/-- Keyword / bracket dispatch of `parseVal` (the non-number productions),
abstracted over the sub-parsers so that the fuelled parsers below recurse
structurally. -/
def parseValKw (pi : List Char → Option (PyList × List Char))
    (pm : List Char → Option (PyPairs × List Char))
    (pints : List Char → Option (List Int × List Char))
    (aa : Bool) : List Char → Option (PyData × List Char)
  | 'n' :: 'u' :: 'l' :: 'l' :: rest => some (PyData.none, rest)
  | 't' :: 'r' :: 'u' :: 'e' :: rest => some (PyData.bool true, rest)
  | 'f' :: 'a' :: 'l' :: 's' :: 'e' :: rest => some (PyData.bool false, rest)
  | '"' :: rest => (parseStrAux rest).map (fun r => (PyData.str (String.mk r.1), r.2))
  | '[' :: rest => (pi rest).map (fun r => (PyData.list r.1, r.2))
  | '\x7b' :: rest => (pm rest).map (fun r => (PyData.dict r.1, r.2))
  | 'a' :: 'r' :: 'r' :: 'a' :: 'y' :: '(' :: '[' :: rest =>
    if aa then (pints rest).map (fun r => (PyData.array r.1, r.2)) else Option.none
  | _ => Option.none

mutual

/-- Recursive-descent parser for the serialized text, fuelled (the fuel
bounds the descent; `needVal v` units parse `dumpVal v`).  The `aa` flag
("allow array") is set for the binary formats and cleared for json, whose
grammar has no array production. -/
def parseVal (aa : Bool) : Nat → List Char → Option (PyData × List Char)
  | 0, _ => Option.none
  | f + 1, cs =>
    if isIntStart cs then (parseInt cs).map (fun r => (PyData.int r.1, r.2))
    else parseValKw (parseItems aa f) (parseMembers aa f) (parseInts f) aa cs

def parseItems (aa : Bool) : Nat → List Char → Option (PyList × List Char)
  | 0, _ => Option.none
  | f + 1, cs =>
    if cs.head? = some ']' then some (PyList.nil, cs.tail)
    else
      (parseVal aa f cs).bind (fun r =>
        if r.2.head? = some ']' then some (PyList.cons r.1 PyList.nil, r.2.tail)
        else if r.2.take 2 = [',', ' '] then
          (parseItems aa f (r.2.drop 2)).map (fun t => (PyList.cons r.1 t.1, t.2))
        else Option.none)

def parseMembers (aa : Bool) : Nat → List Char → Option (PyPairs × List Char)
  | 0, _ => Option.none
  | f + 1, cs =>
    if cs.head? = some '\x7d' then some (PyPairs.nil, cs.tail)
    else if cs.head? = some '"' then
      (parseStrAux cs.tail).bind (fun ks =>
        if ks.2.take 2 = [':', ' '] then
          (parseVal aa f (ks.2.drop 2)).bind (fun v =>
            if v.2.head? = some '\x7d' then
              some (PyPairs.cons (String.mk ks.1) v.1 PyPairs.nil, v.2.tail)
            else if v.2.take 2 = [',', ' '] then
              (parseMembers aa f (v.2.drop 2)).map
                (fun t => (PyPairs.cons (String.mk ks.1) v.1 t.1, t.2))
            else Option.none)
        else Option.none)
    else Option.none

def parseInts : Nat → List Char → Option (List Int × List Char)
  | 0, _ => Option.none
  | f + 1, cs =>
    if cs.take 2 = [']', ')'] then some (([] : List Int), cs.drop 2)
    else
      (parseInt cs).bind (fun r =>
        if r.2.take 2 = [']', ')'] then some ([r.1], r.2.drop 2)
        else if r.2.take 2 = [',', ' '] then
          (parseInts f (r.2.drop 2)).map (fun t => (r.1 :: t.1, t.2))
        else Option.none)

end

/-- `loads`: parse a full document (trailing input is a decode error,
as for `json.loads`); the fuel `length + 1` always suffices. -/
def loads (aa : Bool) (cs : List Char) : Option PyData :=
  match parseVal aa (cs.length + 1) cs with
  | some (v, []) => some v
  | _ => Option.none

mutual

/-- JSON-serializability: `json.dumps` raises `TypeError` on a numeric
array anywhere in the value (and round-trips everything else in the
embedded domain). -/
def jsonOk : PyData → Bool
  | .array _ => false
  | .list xs => jsonOkList xs
  | .dict xs => jsonOkPairs xs
  | _ => true

def jsonOkList : PyList → Bool
  | .nil => true
  | .cons hd tl => jsonOk hd && jsonOkList tl

def jsonOkPairs : PyPairs → Bool
  | .nil => true
  | .cons _ v tl => jsonOk v && jsonOkPairs tl

end

def PyData.isArray : PyData → Bool
  | .array _ => true
  | _ => false

/-- The compressor (`gzip.open` for writing): an invertible stream
wrapper, modelled by its two-byte magic header. -/
def gzipWrap (cs : List Char) : List Char := Char.ofNat 31 :: Char.ofNat 139 :: cs

/-- `gzip.open` for reading: a file without the magic header raises
`BadGzipFile`. -/
def gzipUnwrap (cs : List Char) : Option (List Char) :=
  if cs.take 2 = [Char.ofNat 31, Char.ofNat 139] then some (cs.drop 2) else Option.none

/-- Bytes actually written through the chosen `io_handler`. -/
def encodeContent (compression : Bool) (cs : List Char) : List Char :=
  if compression then gzipWrap cs else cs

/-! ### Filesystem state, exceptions and the `Writers` / `Readers` classes -/

/-- The Python exceptions the cache can raise or propagate. -/
inductive PyErr where
  | cacheError (msg : String)
  | typeError (msg : String)
  | valueError (msg : String)
  | ioError (msg : String)
  | fileNotFoundError (msg : String)
deriving DecidableEq

/-- Filesystem state: regular files (path ↦ byte content) and the set of
existing directories. -/
structure FS where
  files : List (String × List Char)
  dirs : List String
deriving DecidableEq

def eraseFile (files : List (String × List Char)) (path : String) :
    List (String × List Char) :=
  files.filter (fun p => p.1 != path)

def storeFile (files : List (String × List Char)) (path : String) (content : List Char) :
    List (String × List Char) :=
  (path, content) :: eraseFile files path

/-- The environment's outcome for one attempted `open`/`write`: it
succeeds; or the file is created and the write then raises `err`
(disk full, a serialization error inside `numpy.save`, …); or `open`
itself raises `err` (permissions, missing directory) and no file exists
at the path afterwards. -/
inductive WAttempt where
  | succeeds
  | failAfterCreate (err : PyErr)
  | failBeforeCreate (err : PyErr)
deriving DecidableEq

/-- The `except Exception: os.remove(filepath); raise` handler shared by
all writers: `os.remove` is unguarded, so if no file exists at the path
its `FileNotFoundError` replaces the original error. -/
def removeAndReraise (fs : FS) (path : String) (orig : PyErr) : Except PyErr Unit × FS :=
  if (fs.files.lookup path).isSome then
    (.error orig, { fs with files := eraseFile fs.files path })
  else
    (.error (.fileNotFoundError ("[Errno 2] No such file or directory: " ++ path)), fs)

/-- `with io_handler(filepath, 'wb') as f: f.write(dump)` wrapped in the
writers' `try`/`except`, with the environment's outcome injected. -/
def ioWrite (fs : FS) (path : String) (content : List Char) (att : WAttempt) :
    Except PyErr Unit × FS :=
  match att with
  | .succeeds => (.ok (), { fs with files := storeFile fs.files path content })
  | .failAfterCreate e =>
    removeAndReraise { fs with files := storeFile fs.files path [] } path e
  | .failBeforeCreate e => removeAndReraise fs path e

namespace Writers

/-- `Writers.json`: `dump = bytes(json.dumps(data), 'utf-8')` runs before
the `try`, so a serialization error propagates with no filesystem effect;
then the guarded write. -/
def json (data : PyData) (filepath : String) (compression : Bool) (fs : FS)
    (att : WAttempt) : Except PyErr Unit × FS :=
  if jsonOk data then ioWrite fs filepath (encodeContent compression (dumpVal data)) att
  else (.error (.typeError "Object of type ndarray is not JSON serializable"), fs)

/-- `Writers.pickle`: `pickle.dumps` serializes every embedded value. -/
def pickle (data : PyData) (filepath : String) (compression : Bool) (fs : FS)
    (att : WAttempt) : Except PyErr Unit × FS :=
  ioWrite fs filepath (encodeContent compression (dumpVal data)) att

/-- `Writers.numpy`: `numpy.save(f, data, allow_pickle=False)` runs inside
the `try` after the file is opened, so rejecting a non-array behaves like
a write failure after creation. -/
def numpy (data : PyData) (filepath : String) (compression : Bool) (fs : FS)
    (att : WAttempt) : Except PyErr Unit × FS :=
  match att with
  | .succeeds =>
    if data.isArray then
      ioWrite fs filepath (encodeContent compression (dumpVal data)) .succeeds
    else
      ioWrite fs filepath []
        (.failAfterCreate (.valueError "Object arrays cannot be saved when allow_pickle=False"))
  | att' => ioWrite fs filepath (encodeContent compression (dumpVal data)) att'

end Writers

/-- Bytes handed back by the reading `io_handler`. -/
def decodeContent (compression : Bool) (cs : List Char) : Except PyErr (List Char) :=
  if compression then
    match gzipUnwrap cs with
    | some r => .ok r
    | Option.none => .error (.ioError "Not a gzipped file")
  else .ok cs

namespace Readers

/-- `Readers.json`: read (decompressing if requested), `json.loads`. -/
def json (content : List Char) (compression : Bool) : Except PyErr PyData :=
  match decodeContent compression content with
  | .error e => .error e
  | .ok raw =>
    match loads false raw with
    | some v => .ok v
    | Option.none => .error (.valueError "Expecting value: line 1 column 1 (char 0)")

/-- `Readers.pickle`: read, `pickle.loads`. -/
def pickle (content : List Char) (compression : Bool) : Except PyErr PyData :=
  match decodeContent compression content with
  | .error e => .error e
  | .ok raw =>
    match loads true raw with
    | some v => .ok v
    | Option.none => .error (.valueError "unpickling error")

/-- `Readers.numpy`: read, `numpy.load` (which rejects non-array data). -/
def numpy (content : List Char) (compression : Bool) : Except PyErr PyData :=
  match decodeContent compression content with
  | .error e => .error e
  | .ok raw =>
    match loads true raw with
    | some v => if v.isArray then .ok v else .error (.valueError "Failed to interpret file as a pickle")
    | Option.none => .error (.valueError "Failed to interpret file as a pickle")

end Readers

/-- The three static-method names `getattr` can resolve on `Writers` /
`Readers`. -/
inductive SFormat where
  | json
  | pickle
  | numpy
deriving DecidableEq

/-- `getattr(Writers, extension)` resp. `getattr(Readers, extension)` as
performed by `_choose_writer` / `_choose_reader` (the two are verbatim
duplicates in the source): an unknown attribute name raises
`AttributeError`, converted to `CacheError`; a `None` extension is a
`TypeError` from `getattr` itself, which the `except AttributeError`
clause does not catch. -/
def chooseFormat : Option String → Except PyErr SFormat
  | Option.none => .error (.typeError "attribute name must be string, not 'NoneType'")
  | some s =>
    if s = "json" then .ok SFormat.json
    else if s = "pickle" then .ok SFormat.pickle
    else if s = "numpy" then .ok SFormat.numpy
    else .error (.cacheError ("\"" ++ s ++ "\" is not a supported extension"))

/-- Dispatch to the chosen writer. -/
def writeWith (f : SFormat) (data : PyData) (filepath : String) (compression : Bool)
    (fs : FS) (att : WAttempt) : Except PyErr Unit × FS :=
  match f with
  | .json => Writers.json data filepath compression fs att
  | .pickle => Writers.pickle data filepath compression fs att
  | .numpy => Writers.numpy data filepath compression fs att

/-- Dispatch to the chosen reader. -/
def readWith (f : SFormat) (content : List Char) (compression : Bool) : Except PyErr PyData :=
  match f with
  | .json => Readers.json content compression
  | .pickle => Readers.pickle content compression
  | .numpy => Readers.numpy content compression

/-- Each format's documented domain: JSON-compatible data for `json`,
every embedded value for `pickle`, a numeric array for `numpy`. -/
def writeDomain (f : SFormat) (data : PyData) : Bool :=
  match f with
  | .json => jsonOk data
  | .pickle => true
  | .numpy => data.isArray

/-! ## `src/cache.py` — the `simple_caching` decorator

`method_wrapper` (lines 193–323) is embedded as a function of
* the decoration-time configuration (`DecoConfig`, the arguments of
  `simple_caching`, whose defaults are the global defaults),
* the wrapped method (modelled as a function of the remaining keyword
  arguments; its positional arguments only matter through the `cachedir`
  attribute of the first one, passed separately as `arg0`),
* the call-time keyword arguments (`Kwargs`: for each recognized name,
  `none` = absent, `some v` = supplied with value `v`),
* the filesystem state and the environment's write outcome.

The result records the Python return value or exception, the new
filesystem, whether the wrapped method ran, the diagnostics printed to
stderr, and the keyword arguments the method received (if it ran). -/

structure DecoConfig where
  cachedir : Option String := Option.none
  cache_comment : Option String := Option.none
  invalidate : Bool := false
  cache_format : String := "json"
  cache_compression : Bool := true
  callback_func_hit : Option (PyData → PyData) := Option.none
  callback_func_miss : Option (PyData → PyData) := Option.none
  quiet : Bool := false
  no_caching : Bool := false
  cache_name : Option String := Option.none
  cache_ext : Option String := Option.none

structure Kwargs where
  cachedir : Option (Option String) := Option.none
  invalidate : Option Bool := Option.none
  no_caching : Option Bool := Option.none
  cache_name : Option (Option String) := Option.none
  cache_comment : Option (Option String) := Option.none
  callback_func_miss : Option (PyData → PyData) := Option.none
  callback_func_hit : Option (PyData → PyData) := Option.none
  cache_ext : Option (Option String) := Option.none
  cache_compression : Option Bool := Option.none
  cache_format : Option String := Option.none
  quiet : Option Bool := Option.none

/-- Python truthiness of a string-or-`None` value. -/
def truthy : Option String → Bool
  | Option.none => false
  | some s => s != ""

/-- `string.punctuation` (the ASCII punctuation characters). -/
def punctuation : List Char :=
  ((List.range 128).filter (fun n =>
    (33 ≤ n ∧ n ≤ 47) ∨ (58 ≤ n ∧ n ≤ 64) ∨ (91 ≤ n ∧ n ≤ 96) ∨ (123 ≤ n ∧ n ≤ 126))).map
    Char.ofNat

/-- `s.strip(string.punctuation)`. -/
def pyStrip (s : String) : String :=
  String.mk (((s.data.dropWhile (fun c => punctuation.contains c)).reverse.dropWhile
    (fun c => punctuation.contains c)).reverse)

/-- Python's `needle in hay` substring test. -/
def containsSub (hay needle : List Char) : Bool :=
  match hay with
  | [] => needle.isEmpty
  | _ :: t => needle.isPrefixOf hay || containsSub t needle

/-- `re.search(r'(json|pickle|numpy)', ·)`: the leftmost match, with the
alternatives tried in order at each position; `None` when absent. -/
def regexSearchFmt : List Char → Option String
  | [] => Option.none
  | c :: t =>
    if "json".data.isPrefixOf (c :: t) then some "json"
    else if "pickle".data.isPrefixOf (c :: t) then some "pickle"
    else if "numpy".data.isPrefixOf (c :: t) then some "numpy"
    else regexSearchFmt t

def noCacheMsg (mname : String) : String :=
  "[cache] destination not provided; method \"" ++ mname ++ "\" will not be be cached"

def mkdirMsg (dir : String) : String :=
  "[cache] folder \"" ++ dir ++ "\" does not exists; creating it"

def generatingMsg (path : String) : String := "[cache] generating " ++ path

/-- `os.path.join(dir, name)`. -/
def pathJoin (dir name : String) : String :=
  if dir.data.getLast? = some '/' then dir ++ name else dir ++ "/" ++ name

/-- Python `str(·)` of a string-or-`None`. -/
def pyStrOpt : Option String → String
  | Option.none => "None"
  | some s => s

/-- Lines 198–201: probe `args[0].cachedir`; only if the attribute lookup
fails is the `cachedir` keyword popped (with the decoration value as
default). -/
def resolveCachedir (deco : DecoConfig) (arg0 : Option (Option String)) (kw : Kwargs) :
    Option String × Kwargs :=
  match arg0 with
  | some v => (v, kw)
  | Option.none => (kw.cachedir.getD deco.cachedir, { kw with cachedir := Option.none })

/-- The values popped in lines 218–229. -/
structure Resolved where
  invalidate : Bool
  no_caching : Bool
  cache_name : Option String
  cache_comment : Option String
  cbMiss : PyData → PyData
  cbHit : PyData → PyData

/-- Lines 218–229: pop `invalidate`, `no_caching`, `cache_name`,
`cache_comment` and the two callbacks, call-time values taking precedence
over the decoration-time locals (the callbacks defaulting to the
identity, the comment to `cache_comment or ''`). -/
def resolvePops (deco : DecoConfig) (kw : Kwargs) : Resolved × Kwargs :=
  ({ invalidate := kw.invalidate.getD deco.invalidate,
     no_caching := kw.no_caching.getD deco.no_caching,
     cache_name := kw.cache_name.getD deco.cache_name,
     cache_comment := kw.cache_comment.getD (some (deco.cache_comment.getD "")),
     cbMiss := kw.callback_func_miss.getD (deco.callback_func_miss.getD id),
     cbHit := kw.callback_func_hit.getD (deco.callback_func_hit.getD id) },
   { kw with
      invalidate := Option.none
      no_caching := Option.none
      cache_name := Option.none
      cache_comment := Option.none
      callback_func_miss := Option.none
      callback_func_hit := Option.none })

structure FmtRes where
  cache_ext : Option String
  compression : Bool
  format : Option String

/-- Lines 250–277: pop `cache_ext` unconditionally; when it is `None`,
pop `cache_compression` and `cache_format`; otherwise leave those two in
the kwargs and infer compression (`'gzip' in ext or 'gz' in ext`) and
format (regex search, `None` when unrecognized) from the extension. -/
def resolveFmt (deco : DecoConfig) (kw : Kwargs) : FmtRes × Kwargs :=
  match kw.cache_ext.getD deco.cache_ext with
  | Option.none =>
    ({ cache_ext := Option.none,
       compression := kw.cache_compression.getD deco.cache_compression,
       format := some (kw.cache_format.getD deco.cache_format) },
     { kw with
        cache_ext := Option.none
        cache_compression := Option.none
        cache_format := Option.none })
  | some e =>
    ({ cache_ext := some e,
       compression := containsSub e.data "gzip".data || containsSub e.data "gz".data,
       format := regexSearchFmt e.data },
     { kw with cache_ext := Option.none })

/-- Line 279–282: the cache name is the stripped method name unless
`cache_name` was given (checked with `is None`, not truthiness). -/
def resolveName (mname : String) (cname : Option String) : String :=
  match cname with
  | Option.none => pyStrip mname
  | some n => n

/-- Lines 234–240: the comment gets a leading underscore when truthy. -/
def commentStr (c : Option String) : String :=
  if truthy c then "_" ++ c.getD "" else ""

/-- Lines 284–290: `'\x7b\x7d\x7b\x7d.cache.\x7b\x7d\x7b\x7d'.format(...)` joined under the
cache directory.  An unresolved format renders as the string `None`. -/
def resolvedPath (mname : String) (r : Resolved) (fr : FmtRes) (dir : String) : String :=
  pathJoin dir
    (resolveName mname r.cache_name ++ commentStr r.cache_comment ++ ".cache." ++
      pyStrOpt fr.format ++ (if fr.compression then ".gzip" else ""))

/-- Lines 242–248: create the cache directory (with a diagnostic that is
printed regardless of `quiet`). -/
def mkdirFS (dir : String) (fs : FS) : FS :=
  if fs.dirs.contains dir then fs else { fs with dirs := dir :: fs.dirs }

def mkdirMsgs (dir : String) (fs : FS) : List String :=
  if fs.dirs.contains dir then [] else [mkdirMsg dir]

/-- The outcome of one invocation of the decorated function. -/
structure CallResult where
  result : Except PyErr PyData
  fs : FS
  executed : Bool
  msgs : List String
  calledWith : Option Kwargs

/-- Lines 304–323 (the `else`, miss, branch): run the method, print the
`generating` notice unless the *decoration-time* `quiet` is set, choose
the writer (`CacheError` / `TypeError` for unsupported formats), write,
and return the miss-callback of the raw result. -/
def missPath (method : Kwargs → PyData) (r : Resolved) (fr : FmtRes) (kw3 : Kwargs)
    (quiet : Bool) (cachepath : String) (fs1 : FS) (mk1 : List String) (att : WAttempt) :
    CallResult :=
  match chooseFormat fr.format with
  | .error e =>
    { result := .error e, fs := fs1, executed := true,
      msgs := mk1 ++ (if quiet then [] else [generatingMsg cachepath]),
      calledWith := some kw3 }
  | .ok f =>
    match writeWith f (method kw3) cachepath fr.compression fs1 att with
    | (.error e, fs2) =>
      { result := .error e, fs := fs2, executed := true,
        msgs := mk1 ++ (if quiet then [] else [generatingMsg cachepath]),
        calledWith := some kw3 }
    | (.ok _, fs2) =>
      { result := .ok (r.cbMiss (method kw3)), fs := fs2, executed := true,
        msgs := mk1 ++ (if quiet then [] else [generatingMsg cachepath]),
        calledWith := some kw3 }

/-- Lines 293–323: the hit test `os.path.exists(cachepath) and not
inner_invalidate`, the hit branch (choose reader, read, hit-callback),
and otherwise the miss branch. -/
def hitOrMiss (method : Kwargs → PyData) (r : Resolved) (fr : FmtRes) (kw3 : Kwargs)
    (quiet : Bool) (cachepath : String) (fs1 : FS) (mk1 : List String) (att : WAttempt) :
    CallResult :=
  if (fs1.files.lookup cachepath).isSome && !r.invalidate then
    match chooseFormat fr.format with
    | .error e =>
      { result := .error e, fs := fs1, executed := false, msgs := mk1,
        calledWith := Option.none }
    | .ok f =>
      match readWith f ((fs1.files.lookup cachepath).getD []) fr.compression with
      | .error e =>
        { result := .error e, fs := fs1, executed := false, msgs := mk1,
          calledWith := Option.none }
      | .ok v =>
        { result := .ok (r.cbHit v), fs := fs1, executed := false, msgs := mk1,
          calledWith := Option.none }
  else
    missPath method r fr kw3 quiet cachepath fs1 mk1 att

/-- Lines 231–323 once a truthy cache directory is in hand and
`no_caching` is off. -/
def cachedBranch (deco : DecoConfig) (mname : String) (method : Kwargs → PyData)
    (dir : String) (r : Resolved) (kw2 : Kwargs) (fs0 : FS) (att : WAttempt) : CallResult :=
  hitOrMiss method r (resolveFmt deco kw2).1 (resolveFmt deco kw2).2 deco.quiet
    (resolvedPath mname r (resolveFmt deco kw2).1 dir)
    (mkdirFS dir fs0) (mkdirMsgs dir fs0) att

/-- `method_wrapper` (lines 193–323). -/
def method_wrapper (deco : DecoConfig) (mname : String) (method : Kwargs → PyData)
    (arg0 : Option (Option String)) (kw0 : Kwargs) (fs0 : FS) (att : WAttempt) : CallResult :=
  if truthy (resolveCachedir deco arg0 kw0).1 = false then
    { result := .ok (method (resolveCachedir deco arg0 kw0).2), fs := fs0, executed := true,
      msgs := if deco.quiet then [] else [noCacheMsg mname],
      calledWith := some (resolveCachedir deco arg0 kw0).2 }
  else if (resolvePops deco (resolveCachedir deco arg0 kw0).2).1.no_caching then
    { result := .ok (method (resolvePops deco (resolveCachedir deco arg0 kw0).2).2),
      fs := fs0, executed := true, msgs := [],
      calledWith := some (resolvePops deco (resolveCachedir deco arg0 kw0).2).2 }
  else
    cachedBranch deco mname method ((resolveCachedir deco arg0 kw0).1.getD "")
      (resolvePops deco (resolveCachedir deco arg0 kw0).2).1
      (resolvePops deco (resolveCachedir deco arg0 kw0).2).2 fs0 att

theorem hash_obj_num (md5 : String → Nat) (ig : Bool) (n : Int) :
    hash_obj md5 ig (.num n) = .ok (md5 (toString n)) := by
  simp [hash_obj]

theorem hash_obj_str (md5 : String → Nat) (ig : Bool) (s : String) :
    hash_obj md5 ig (.str s) = .ok (md5 s) := by
  simp [hash_obj]

theorem ebindOk {ε α β : Type} (a : α) (f : α → Except ε β) :
    (Except.ok a >>= f) = f a := rfl

theorem ebindErr {ε α β : Type} (e : ε) (f : α → Except ε β) :
    ((Except.error e : Except ε α) >>= f) = Except.error e := rfl

theorem eIsOk_ok {ε α : Type} (a : α) : (Except.ok a : Except ε α).isOk = true := rfl

theorem eIsOk_err {ε α : Type} (e : ε) : (Except.error e : Except ε α).isOk = false := rfl

theorem eToOption_ok {ε α : Type} (a : α) : (Except.ok a : Except ε α).toOption = some a := rfl

theorem emapOk {ε α β : Type} (f : α → β) (a : α) :
    (Except.ok a : Except ε α).map f = Except.ok (f a) := rfl

theorem emapErr {ε α β : Type} (f : α → β) (e : ε) :
    (Except.error e : Except ε α).map f = Except.error e := rfl

theorem hashElems_error (md5 : String → Nat) :
    ∀ {xs : List PyObj} {m : String}, hashElems md5 xs = .error m →
      ∃ x ∈ xs, hash_obj md5 false x = .error m := by
  intro xs
  induction xs with
  | nil => intro m h; simp [hashElems] at h
  | cons a as ih =>
    intro m h
    rw [hashElems] at h
    cases ha : hash_obj md5 false a with
    | error e =>
      rw [ha, ebindErr] at h
      injection h with hm
      subst hm
      exact ⟨a, List.mem_cons_self a as, ha⟩
    | ok v =>
      rw [ha, ebindOk] at h
      cases ht : hashElems md5 as with
      | error e =>
        rw [ht, ebindErr] at h
        injection h with hm
        subst hm
        obtain ⟨x, hx, hh⟩ := ih ht
        exact ⟨x, List.mem_cons_of_mem a hx, hh⟩
      | ok t => rw [ht, ebindOk] at h; simp at h

theorem hashPairs_error (md5 : String → Nat) :
    ∀ {xs : List (String × PyObj)} {m : String}, hashPairs md5 xs = .error m →
      ∃ p ∈ xs, hash_obj md5 false p.2 = .error m := by
  intro xs
  induction xs with
  | nil => intro m h; simp [hashPairs] at h
  | cons a as ih =>
    intro m h
    obtain ⟨k, v⟩ := a
    rw [hashPairs] at h
    cases ha : hash_obj md5 false v with
    | error e =>
      rw [ha, ebindErr] at h
      injection h with hm
      subst hm
      exact ⟨(k, v), List.mem_cons_self _ as, ha⟩
    | ok hv =>
      rw [ha, ebindOk] at h
      cases ht : hashPairs md5 as with
      | error e =>
        rw [ht, ebindErr] at h
        injection h with hm
        subst hm
        obtain ⟨p, hp, hh⟩ := ih ht
        exact ⟨p, List.mem_cons_of_mem _ hp, hh⟩
      | ok t => rw [ht, ebindOk] at h; simp at h

/-- The only error `hash_obj` ever raises is the unhashable `TypeError`. -/
theorem hash_obj_error (md5 : String → Nat) :
    ∀ (o : PyObj) (ig : Bool) (m : String),
      hash_obj md5 ig o = .error m → m = unhashMsg := by
  have key : ∀ (n : Nat) (o : PyObj), sizeOf o ≤ n → ∀ (ig : Bool) (m : String),
      hash_obj md5 ig o = .error m → m = unhashMsg := by
    intro n
    induction n with
    | zero =>
      intro o hs
      cases o <;> simp at hs
    | succ n ih =>
      intro o hs ig m h
      cases o with
      | num k => rw [hash_obj_num] at h; cases h
      | str s => rw [hash_obj_str] at h; cases h
      | none => simp [hash_obj] at h
      | obj =>
        rw [hash_obj] at h
        cases ig with
        | true => simp at h
        | false =>
          simp only [Bool.false_eq_true, if_false] at h
          injection h with hm
          exact hm.symm
      | list xs =>
        rw [hash_obj, hashSeqWith] at h
        by_cases h1 : allNum xs = true
        · simp [h1] at h
        · by_cases h2 : allStr xs = true
          · simp [h1, h2] at h
          · simp only [h1, h2, if_false, Bool.false_eq_true] at h
            cases he : hashElems md5 xs with
            | ok l => rw [he, emapOk] at h; simp at h
            | error e =>
              rw [he, emapErr] at h
              injection h with hm
              subst hm
              obtain ⟨x, hx, hh⟩ := hashElems_error md5 he
              refine ih x ?_ false _ hh
              have hlt : sizeOf x < sizeOf xs := List.sizeOf_lt_of_mem hx
              have : sizeOf (PyObj.list xs) = 1 + sizeOf xs := by simp
              omega
      | tuple xs =>
        rw [hash_obj, hashSeqWith] at h
        by_cases h1 : allNum xs = true
        · simp [h1] at h
        · by_cases h2 : allStr xs = true
          · simp [h1, h2] at h
          · simp only [h1, h2, if_false, Bool.false_eq_true] at h
            cases he : hashElems md5 xs with
            | ok l => rw [he, emapOk] at h; simp at h
            | error e =>
              rw [he, emapErr] at h
              injection h with hm
              subst hm
              obtain ⟨x, hx, hh⟩ := hashElems_error md5 he
              refine ih x ?_ false _ hh
              have hlt : sizeOf x < sizeOf xs := List.sizeOf_lt_of_mem hx
              have : sizeOf (PyObj.tuple xs) = 1 + sizeOf xs := by simp
              omega
      | set xs =>
        rw [hash_obj, hashSeqWith] at h
        by_cases h1 : allNum xs = true
        · simp [h1] at h
        · by_cases h2 : allStr xs = true
          · simp [h1, h2] at h
          · simp only [h1, h2, if_false, Bool.false_eq_true] at h
            cases he : hashElems md5 xs with
            | ok l => rw [he, emapOk] at h; simp at h
            | error e =>
              rw [he, emapErr] at h
              injection h with hm
              subst hm
              obtain ⟨x, hx, hh⟩ := hashElems_error md5 he
              refine ih x ?_ false _ hh
              have hlt : sizeOf x < sizeOf xs := List.sizeOf_lt_of_mem hx
              have : sizeOf (PyObj.set xs) = 1 + sizeOf xs := by simp
              omega
      | dict xs =>
        rw [hash_obj, hashDictWith] at h
        cases he : hashPairs md5 xs with
        | ok l => rw [he, emapOk] at h; simp at h
        | error e =>
          rw [he, emapErr] at h
          injection h with hm
          subst hm
          obtain ⟨p, hp, hh⟩ := hashPairs_error md5 he
          refine ih p.2 ?_ false _ hh
          have hlt : sizeOf p < sizeOf xs := List.sizeOf_lt_of_mem hp
          have hps : sizeOf p.2 < sizeOf p := by
            obtain ⟨k, v⟩ := p
            simp
          have : sizeOf (PyObj.dict xs) = 1 + sizeOf xs := by simp
          omega
  intro o
  exact key (sizeOf o) o le_rfl

theorem hashElems_eq (md5 : String → Nat) (xs : List PyObj) :
    hashElems md5 xs =
      if xs.all (fun x => (hash_obj md5 false x).isOk) then .ok (xs.map (hashValD md5))
      else .error unhashMsg := by
  induction xs with
  | nil => simp [hashElems]
  | cons a as ih =>
    rw [hashElems]
    cases ha : hash_obj md5 false a with
    | error e =>
      have he : e = unhashMsg := hash_obj_error md5 a false e ha
      subst he
      simp [ha, ebindErr, eIsOk_err]
    | ok v =>
      rw [ih]
      by_cases hall : as.all (fun x => (hash_obj md5 false x).isOk) = true
      · simp [ha, hall, ebindOk, eIsOk_ok, hashValD, eToOption_ok]
      · simp only [Bool.not_eq_true] at hall
        simp [ha, hall, ebindOk, ebindErr, eIsOk_ok]

theorem hashPairs_eq (md5 : String → Nat) (xs : List (String × PyObj)) :
    hashPairs md5 xs =
      if xs.all (fun p => (hash_obj md5 false p.2).isOk) then
        .ok (xs.map (fun p => (p.1, hashValD md5 p.2)))
      else .error unhashMsg := by
  induction xs with
  | nil => simp [hashPairs]
  | cons a as ih =>
    obtain ⟨k, v⟩ := a
    rw [hashPairs]
    cases ha : hash_obj md5 false v with
    | error e =>
      have he : e = unhashMsg := hash_obj_error md5 v false e ha
      subst he
      simp [ha, ebindErr, eIsOk_err]
    | ok hv =>
      rw [ih]
      by_cases hall : as.all (fun p => (hash_obj md5 false p.2).isOk) = true
      · simp [ha, hall, ebindOk, eIsOk_ok, hashValD, eToOption_ok]
      · simp only [Bool.not_eq_true] at hall
        simp [ha, hall, ebindOk, ebindErr, eIsOk_ok]

theorem all_perm {α : Type} {p : α → Bool} {l₁ l₂ : List α} (h : l₁.Perm l₂) :
    l₁.all p = l₂.all p := by
  induction h with
  | nil => rfl
  | cons a _ ih => simp [ih]
  | swap a b l => simp [Bool.and_left_comm]
  | trans _ _ ih₁ ih₂ => rw [ih₁, ih₂]

theorem lookup_perm {β : Type} {l₁ l₂ : List (String × β)} (h : l₁.Perm l₂)
    (nd : (l₁.map Prod.fst).Nodup) (k : String) : l₁.lookup k = l₂.lookup k := by
  induction h with
  | nil => rfl
  | cons a h ih =>
    obtain ⟨ka, va⟩ := a
    simp only [List.map_cons, List.nodup_cons] at nd
    rw [List.lookup_cons, List.lookup_cons]
    cases hk : k == ka with
    | true => rfl
    | false => exact ih nd.2
  | swap a b l =>
    obtain ⟨ka, va⟩ := a
    obtain ⟨kb, vb⟩ := b
    simp only [List.map_cons, List.nodup_cons, List.mem_cons, not_or] at nd
    rw [List.lookup_cons, List.lookup_cons, List.lookup_cons, List.lookup_cons]
    cases hkb : k == kb with
    | true =>
      cases hka : k == ka with
      | true =>
        exfalso
        have e1 : k = kb := eq_of_beq hkb
        have e2 : k = ka := eq_of_beq hka
        exact nd.1.1 (by rw [← e1]; exact e2)
      | false => rfl
    | false =>
      cases hka : k == ka with
      | true => rfl
      | false => rfl
  | trans h₁ h₂ ih₁ ih₂ =>
    rw [ih₁ nd]
    exact ih₂ ((h₁.map Prod.fst).nodup_iff.mp nd)

theorem insertionSort_perm_eq {α : Type} [LinearOrder α] {l₁ l₂ : List α}
    (h : l₁.Perm l₂) :
    l₁.insertionSort (· ≤ ·) = l₂.insertionSort (· ≤ ·) :=
  List.eq_of_perm_of_sorted
    ((List.perm_insertionSort _ _).trans (h.trans (List.perm_insertionSort _ _).symm))
    (List.sorted_insertionSort _ _) (List.sorted_insertionSort _ _)

/-- The sequence hash is invariant under permutation of an orderable
(all-numbers or all-strings) element list. -/
theorem hashSeq_perm (md5 : String → Nat) {xs ys : List PyObj} (h : xs.Perm ys)
    (ho : allNum xs = true ∨ allStr xs = true) :
    hashSeqWith md5 xs (hashElems md5 xs) = hashSeqWith md5 ys (hashElems md5 ys) := by
  by_cases hn : allNum xs = true
  · have hn' : allNum ys = true := by
      rw [allNum, ← all_perm h]
      exact hn
    rw [hashSeqWith, hashSeqWith, if_pos hn, if_pos hn',
      insertionSort_perm_eq (h.map toNum)]
  · have hs : allStr xs = true := ho.resolve_left hn
    have hn' : ¬allNum ys = true := by
      rw [allNum, ← all_perm h]
      exact hn
    have hs' : allStr ys = true := by
      rw [allStr, ← all_perm h]
      exact hs
    rw [hashSeqWith, hashSeqWith, if_neg hn, if_neg hn', if_pos hs, if_pos hs',
      insertionSort_perm_eq (h.map toStrv)]

/-- The mapping hash is invariant under permutation of the (key, value)
pairs, provided the keys are distinct (as they are in any Python dict). -/
theorem hashDict_perm (md5 : String → Nat) {xs ys : List (String × PyObj)}
    (h : xs.Perm ys) (nd : (xs.map Prod.fst).Nodup) :
    hashDictWith md5 xs (hashPairs md5 xs) = hashDictWith md5 ys (hashPairs md5 ys) := by
  have hcond := all_perm (p := fun p => (hash_obj md5 false p.2).isOk) h
  rw [hashDictWith, hashDictWith, hashPairs_eq, hashPairs_eq]
  by_cases hc : xs.all (fun p => (hash_obj md5 false p.2).isOk) = true
  · rw [if_pos hc, if_pos (hcond ▸ hc), emapOk, emapOk]
    have hperm : (xs.map (fun p => (p.1, hashValD md5 p.2))).Perm
        (ys.map (fun p => (p.1, hashValD md5 p.2))) := h.map _
    have nd' : ((xs.map (fun p => (p.1, hashValD md5 p.2))).map Prod.fst).Nodup := by
      rw [List.map_map]
      exact nd
    have hfun : (fun k => (k, (((xs.map (fun p => (p.1, hashValD md5 p.2))).lookup k).getD 0)))
        = (fun k => (k, (((ys.map (fun p => (p.1, hashValD md5 p.2))).lookup k).getD 0))) :=
      funext fun k => by rw [lookup_perm hperm nd' k]
    rw [insertionSort_perm_eq (h.map Prod.fst), hfun]
  · rw [if_neg hc, if_neg (hcond ▸ hc), emapErr, emapErr]

/-- C2 (`code_bug` evaluation): the compact base-64 round trip fails.
`SYMBOLS` in the source contains `u` twice (indices 18 and 30, in place of
the missing `i`), so the dict comprehension `SYMBOLS_VALUE` maps `u` to 30
and `decode_compact64(encode_compact64(18))` returns 30, not 18, refuting
`decode(encode(n)) == n` for every integer. -/
theorem C2_compact64_roundtrip_fails_at_18 :
    decode_compact64 (encode_compact64 18) = some 30 ∧
    decode_compact64 (encode_compact64 18) ≠ some 18 := by decide

/-- C6 counterexample: with `ignore_unhashable=True`, an unhashable value
nested inside a list makes `hash_obj` raise the unhashable `TypeError`
instead of degrading to the sentinel 0, because the recursive call
`hash_obj(elem)` does not forward the flag. -/
theorem C6_cex_nested_unhashable_raises_despite_optin :
    hash_obj md5c true (PyObj.list [PyObj.obj]) = Except.error unhashMsg ∧
    hash_obj md5c true (PyObj.list [PyObj.obj]) ≠ Except.ok 0 := by
  have h : hash_obj md5c true (PyObj.list [PyObj.obj]) = Except.error unhashMsg := by
    simp [hash_obj, hashSeqWith, hashElems, allNum, allStr, PyObj.isNum, PyObj.isStr,
      ebindErr, ebindOk, emapErr, emapOk]
  exact ⟨h, by rw [h]; simp⟩

/-- C6 (amended): a top-level unhashable value raises the `TypeError`
without the opt-in and degrades to the constant sentinel hash 0 with
`ignore_unhashable=True`; but the flag is not propagated into the
recursive calls, so an unhashable value nested inside a sequence or a
mapping raises the `TypeError` regardless of the opt-in. -/
theorem C6_unhashable_degradation_top_level_only (md5 : String → Nat) :
    (hash_obj md5 false PyObj.obj = Except.error unhashMsg) ∧
    (hash_obj md5 true PyObj.obj = Except.ok 0) ∧
    (∀ (ig : Bool) (xs : List PyObj), PyObj.obj ∈ xs →
      hash_obj md5 ig (PyObj.list xs) = Except.error unhashMsg) ∧
    (∀ (ig : Bool) (xs : List (String × PyObj)) (k : String), (k, PyObj.obj) ∈ xs →
      hash_obj md5 ig (PyObj.dict xs) = Except.error unhashMsg) := by
  refine ⟨by simp [hash_obj], by simp [hash_obj], ?_, ?_⟩
  · intro ig xs hmem
    have h1 : allNum xs = false :=
      List.all_eq_false.mpr ⟨_, hmem, by simp [PyObj.isNum]⟩
    have h2 : allStr xs = false :=
      List.all_eq_false.mpr ⟨_, hmem, by simp [PyObj.isStr]⟩
    have h3 : xs.all (fun x => (hash_obj md5 false x).isOk) = false :=
      List.all_eq_false.mpr ⟨_, hmem, by simp [hash_obj, eIsOk_err]⟩
    simp only [hash_obj, hashSeqWith, h1, h2, Bool.false_eq_true, if_false,
      hashElems_eq, h3, emapErr]
  · intro ig xs k hmem
    have h3 : xs.all (fun p => (hash_obj md5 false p.2).isOk) = false :=
      List.all_eq_false.mpr ⟨_, hmem, by simp [hash_obj, eIsOk_err]⟩
    simp only [hash_obj, hashDictWith, hashPairs_eq, h3, Bool.false_eq_true, if_false,
      emapErr]

theorem C6_unhashable_degradation_top_level_only_witness :
    hash_obj md5c true (PyObj.list [PyObj.num 1, PyObj.obj]) = Except.error unhashMsg :=
  (C6_unhashable_degradation_top_level_only md5c).2.2.1 true _ (by simp)

/-- C7: `hash_obj` is order-independent: the hash of a mapping depends only
on its set of (key, value) pairs, and the hash of a list / tuple / set of
pairwise orderable elements (modelled as: all numbers, or all strings) is
invariant under any permutation of the elements. -/
theorem C7_hash_order_independence (md5 : String → Nat) (ig ig' : Bool) :
    (∀ (xs ys : List (String × PyObj)), xs.Perm ys → (xs.map Prod.fst).Nodup →
      hash_obj md5 ig (PyObj.dict xs) = hash_obj md5 ig' (PyObj.dict ys)) ∧
    (∀ (xs ys : List PyObj), xs.Perm ys → (allNum xs = true ∨ allStr xs = true) →
      hash_obj md5 ig (PyObj.list xs) = hash_obj md5 ig' (PyObj.list ys) ∧
      hash_obj md5 ig (PyObj.tuple xs) = hash_obj md5 ig' (PyObj.tuple ys) ∧
      hash_obj md5 ig (PyObj.set xs) = hash_obj md5 ig' (PyObj.set ys)) := by
  constructor
  · intro xs ys h nd
    simp only [hash_obj]
    exact hashDict_perm md5 h nd
  · intro xs ys h ho
    refine ⟨?_, ?_, ?_⟩ <;> simp only [hash_obj] <;> exact hashSeq_perm md5 h ho

theorem C7_hash_order_independence_witness :
    hash_obj md5c true (PyObj.dict [("a", PyObj.num 1), ("b", PyObj.num 2)]) =
      hash_obj md5c false (PyObj.dict [("b", PyObj.num 2), ("a", PyObj.num 1)]) ∧
    hash_obj md5c true (PyObj.list [PyObj.num 1, PyObj.num 2]) =
      hash_obj md5c false (PyObj.list [PyObj.num 2, PyObj.num 1]) :=
  ⟨(C7_hash_order_independence md5c true false).1 _ _ (List.Perm.swap _ _ _) (by decide),
   ((C7_hash_order_independence md5c true false).2 _ _ (List.Perm.swap _ _ _)
     (Or.inl (by decide))).1⟩

/-! ### Correctness of the serialized-text codec -/

theorem digit_char_isDigit : ∀ d, d < 10 → (Char.ofNat (48 + d)).isDigit = true := by decide

theorem digit_char_val : ∀ d, d < 10 → (Char.ofNat (48 + d)).toNat = 48 + d := by decide

theorem natDigitsF_fuel : ∀ (n f f' : Nat), n < f → n < f' →
    natDigitsF f n = natDigitsF f' n := by
  intro n
  induction n using Nat.strong_induction_on with
  | _ n ih =>
    intro f f' hf hf'
    cases f with
    | zero => omega
    | succ g =>
      cases f' with
      | zero => omega
      | succ g' =>
        rw [natDigitsF, natDigitsF]
        by_cases h0 : n / 10 = 0
        · rw [if_pos h0, if_pos h0]
        · rw [if_neg h0, if_neg h0]
          have hne : n ≠ 0 := fun h => h0 (by simp [h])
          have hlt : n / 10 < n := Nat.div_lt_self (Nat.pos_of_ne_zero hne) (by omega)
          rw [ih (n / 10) hlt g g' (by omega) (by omega)]

theorem natDigitsF_digit : ∀ (f n : Nat) (c : Char), c ∈ natDigitsF f n →
    c.isDigit = true := by
  intro f
  induction f with
  | zero => intro n c h; simp [natDigitsF] at h
  | succ f ih =>
    intro n c h
    rw [natDigitsF] at h
    rcases List.mem_cons.mp h with h1 | h2
    · subst h1
      exact digit_char_isDigit _ (Nat.mod_lt _ (by omega))
    · by_cases h0 : n / 10 = 0
      · rw [if_pos h0] at h2; simp at h2
      · rw [if_neg h0] at h2; exact ih _ _ h2

theorem natChars_digit {n : Nat} {c : Char} (h : c ∈ natChars n) : c.isDigit = true :=
  natDigitsF_digit _ _ _ (List.mem_reverse.mp h)

theorem natChars_head (n : Nat) : ∃ c t, natChars n = c :: t ∧ c.isDigit = true := by
  cases h : natChars n with
  | nil =>
    exfalso
    rw [natChars, natDigitsF] at h
    simp at h
  | cons c t => exact ⟨c, t, rfl, natChars_digit (h ▸ List.mem_cons_self c t)⟩

theorem charsVal_append (xs : List Char) (c : Char) :
    charsVal (xs ++ [c]) = charsVal xs * 10 + (c.toNat - 48) := by
  simp [charsVal, List.foldl_append]

theorem charsVal_natChars : ∀ n, charsVal (natChars n) = n := by
  intro n
  induction n using Nat.strong_induction_on with
  | _ n ih =>
    rw [natChars, natDigitsF]
    by_cases h0 : n / 10 = 0
    · rw [if_pos h0]
      have hlt : n % 10 < 10 := Nat.mod_lt _ (by omega)
      have h10 : n < 10 := by
        rcases Nat.lt_or_ge n 10 with h | h
        · exact h
        · exact absurd h0 (by
            have : 1 ≤ n / 10 := (Nat.le_div_iff_mul_le (by omega)).mpr (by omega)
            omega)
      simp only [List.reverse_cons, List.reverse_nil, List.nil_append]
      rw [show ([Char.ofNat (48 + n % 10)] : List Char) = [] ++ [Char.ofNat (48 + n % 10)] from rfl,
        charsVal_append]
      rw [digit_char_val _ hlt]
      simp [charsVal]
      omega
    · rw [if_neg h0]
      rw [List.reverse_cons]
      have hne : n ≠ 0 := fun h => h0 (by simp [h])
      have hlt : n / 10 < n := Nat.div_lt_self (Nat.pos_of_ne_zero hne) (by omega)
      rw [natDigitsF_fuel (n / 10) n (n / 10 + 1) hlt (by omega)]
      rw [charsVal_append]
      rw [show (natDigitsF (n / 10 + 1) (n / 10)).reverse = natChars (n / 10) from rfl]
      rw [ih (n / 10) hlt]
      rw [digit_char_val _ (Nat.mod_lt _ (by omega))]
      omega

theorem takeWhile_append_all {p : Char → Bool} :
    ∀ (l l' : List Char), (∀ c ∈ l, p c = true) →
      (l ++ l').takeWhile p = l ++ l'.takeWhile p := by
  intro l
  induction l with
  | nil => simp
  | cons c cs ih =>
    intro l' h
    have hc := h c (List.mem_cons_self _ _)
    simp only [List.cons_append, List.takeWhile_cons, hc, if_true]
    rw [ih l' (fun x hx => h x (List.mem_cons_of_mem _ hx))]

theorem dropWhile_append_all {p : Char → Bool} :
    ∀ (l l' : List Char), (∀ c ∈ l, p c = true) →
      (l ++ l').dropWhile p = l'.dropWhile p := by
  intro l
  induction l with
  | nil => simp
  | cons c cs ih =>
    intro l' h
    have hc := h c (List.mem_cons_self _ _)
    simp only [List.cons_append, List.dropWhile_cons, hc, if_true]
    exact ih l' (fun x hx => h x (List.mem_cons_of_mem _ hx))

theorem takeWhile_noDigit {l : List Char} (h : noDigitStart l = true) :
    l.takeWhile Char.isDigit = [] := by
  cases l with
  | nil => rfl
  | cons c cs =>
    rw [noDigitStart] at h
    simp only [Bool.not_eq_true'] at h
    simp [List.takeWhile_cons, h]

theorem dropWhile_noDigit {l : List Char} (h : noDigitStart l = true) :
    l.dropWhile Char.isDigit = l := by
  cases l with
  | nil => rfl
  | cons c cs =>
    rw [noDigitStart] at h
    simp only [Bool.not_eq_true'] at h
    simp [List.dropWhile_cons, h]

theorem parseInt_dump (n : Int) (rest : List Char) (h : noDigitStart rest = true) :
    parseInt (intChars n ++ rest) = some (n, rest) := by
  by_cases hn : n < 0
  · rw [intChars, if_pos hn, List.cons_append, parseInt]
    simp only [List.head?_cons, List.tail_cons, Option.some.injEq, reduceCtorEq, if_true]
    rw [takeWhile_append_all _ _ (fun c hc => natChars_digit hc), takeWhile_noDigit h,
      dropWhile_append_all _ _ (fun c hc => natChars_digit hc), dropWhile_noDigit h,
      List.append_nil]
    rw [if_neg (by
      rw [natChars, natDigitsF]
      simp)]
    rw [charsVal_natChars]
    have : -((n.natAbs : Nat) : Int) = n := by omega
    rw [this]
  · rw [intChars, if_neg hn]
    obtain ⟨c, t, hct, hcd⟩ := natChars_head n.toNat
    have hcne : c ≠ '-' := by
      intro hc
      rw [hc] at hcd
      exact absurd hcd (by decide)
    rw [parseInt]
    rw [if_neg (by
      rw [hct, List.cons_append, List.head?_cons]
      simp [hcne])]
    rw [takeWhile_append_all _ _ (fun c hc => natChars_digit hc), takeWhile_noDigit h,
      dropWhile_append_all _ _ (fun c hc => natChars_digit hc), dropWhile_noDigit h,
      List.append_nil]
    rw [if_neg (by
      rw [natChars, natDigitsF]
      simp)]
    rw [charsVal_natChars]
    have : ((n.toNat : Nat) : Int) = n := by omega
    rw [this]

theorem parseStr_esc : ∀ (cs rest : List Char),
    parseStrAux (escList cs ++ '"' :: rest) = some (cs, rest) := by
  intro cs
  induction cs with
  | nil => intro rest; simp [escList, parseStrAux]
  | cons c cs ih =>
    intro rest
    rw [escList, escChar]
    by_cases h1 : c = '"'
    · subst h1
      simp [parseStrAux, parseStrEsc, ih]
    · by_cases h2 : c = '\\'
      · subst h2
        simp [parseStrAux, parseStrEsc, ih, h1]
      · simp [parseStrAux, parseStrEsc, ih, h1, h2]

theorem intChars_head (n : Int) :
    ∃ c t, intChars n = c :: t ∧ (c.isDigit = true ∨ c = '-') := by
  by_cases hn : n < 0
  · exact ⟨'-', _, by rw [intChars, if_pos hn], Or.inr rfl⟩
  · obtain ⟨c, t, hct, hcd⟩ := natChars_head n.toNat
    exact ⟨c, t, by rw [intChars, if_neg hn, hct], Or.inl hcd⟩

theorem isIntStart_intChars (n : Int) (X : List Char) :
    isIntStart (intChars n ++ X) = true := by
  obtain ⟨c, t, hct, hcd⟩ := intChars_head n
  rw [hct, List.cons_append, isIntStart]
  rcases hcd with h | h
  · simp [h]
  · simp [h]

theorem digit_ne_rbracket {c : Char} (h : c.isDigit = true) : c ≠ ']' := by
  intro hc
  rw [hc] at h
  exact absurd h (by decide)

theorem intChars_head_ne (n : Int) :
    ∃ c t, intChars n = c :: t ∧ c ≠ ']' := by
  obtain ⟨c, t, hct, hcd⟩ := intChars_head n
  refine ⟨c, t, hct, ?_⟩
  rcases hcd with h | h
  · exact digit_ne_rbracket h
  · rw [h]; decide

theorem dumpVal_head (v : PyData) : ∃ c t, dumpVal v = c :: t ∧ c ≠ ']' := by
  cases v with
  | none => exact ⟨'n', _, rfl, by decide⟩
  | bool b =>
    cases b with
    | true => exact ⟨'t', _, rfl, by decide⟩
    | false => exact ⟨'f', _, rfl, by decide⟩
  | int n =>
    obtain ⟨c, t, hct, hc⟩ := intChars_head_ne n
    exact ⟨c, t, by rw [dumpVal, hct], hc⟩
  | str s => exact ⟨'"', _, rfl, by decide⟩
  | list xs => exact ⟨'[', _, rfl, by decide⟩
  | dict xs => exact ⟨'\x7b', _, rfl, by decide⟩
  | array xs => exact ⟨'a', _, rfl, by decide⟩

theorem obindSome {α β : Type} (a : α) (f : α → Option β) : (some a).bind f = f a := rfl

theorem parseVal_succ (aa : Bool) (f : Nat) (cs : List Char) :
    parseVal aa (f + 1) cs =
      if isIntStart cs then (parseInt cs).map (fun r => (PyData.int r.1, r.2))
      else parseValKw (parseItems aa f) (parseMembers aa f) (parseInts f) aa cs := rfl

theorem parseItems_succ (aa : Bool) (f : Nat) (cs : List Char) :
    parseItems aa (f + 1) cs =
      if cs.head? = some ']' then some (PyList.nil, cs.tail)
      else
        (parseVal aa f cs).bind (fun r =>
          if r.2.head? = some ']' then some (PyList.cons r.1 PyList.nil, r.2.tail)
          else if r.2.take 2 = [',', ' '] then
            (parseItems aa f (r.2.drop 2)).map (fun t => (PyList.cons r.1 t.1, t.2))
          else Option.none) := rfl

theorem parseMembers_succ (aa : Bool) (f : Nat) (cs : List Char) :
    parseMembers aa (f + 1) cs =
      if cs.head? = some '\x7d' then some (PyPairs.nil, cs.tail)
      else if cs.head? = some '"' then
        (parseStrAux cs.tail).bind (fun ks =>
          if ks.2.take 2 = [':', ' '] then
            (parseVal aa f (ks.2.drop 2)).bind (fun v =>
              if v.2.head? = some '\x7d' then
                some (PyPairs.cons (String.mk ks.1) v.1 PyPairs.nil, v.2.tail)
              else if v.2.take 2 = [',', ' '] then
                (parseMembers aa f (v.2.drop 2)).map
                  (fun t => (PyPairs.cons (String.mk ks.1) v.1 t.1, t.2))
              else Option.none)
          else Option.none)
      else Option.none := rfl

theorem parseInts_succ (f : Nat) (cs : List Char) :
    parseInts (f + 1) cs =
      if cs.take 2 = [']', ')'] then some (([] : List Int), cs.drop 2)
      else
        (parseInt cs).bind (fun r =>
          if r.2.take 2 = [']', ')'] then some ([r.1], r.2.drop 2)
          else if r.2.take 2 = [',', ' '] then
            (parseInts f (r.2.drop 2)).map (fun t => (r.1 :: t.1, t.2))
          else Option.none) := rfl

theorem parse_dumpInts (xs : List Int) : ∀ (f : Nat) (rest : List Char),
    needInts' xs ≤ f → parseInts f (dumpInts xs ++ rest) = some (xs, rest) := by
  induction xs with
  | nil =>
    intro f rest hf
    cases f with
    | zero => simp [needInts'] at hf
    | succ f => rfl
  | cons n tl ih =>
    intro f rest hf
    cases f with
    | zero => simp [needInts'] at hf
    | succ f =>
      have hftl : needInts' tl ≤ f := by rw [needInts'] at hf; omega
      obtain ⟨c, t, hct, hc⟩ := intChars_head_ne n
      cases tl with
      | nil =>
        rw [show dumpInts [n] ++ rest = intChars n ++ (']' :: ')' :: rest) from by
          rw [dumpInts]; simp]
        rw [parseInts_succ]
        rw [if_neg (by rw [hct, List.cons_append]; simp [hc])]
        rw [parseInt_dump n (']' :: ')' :: rest) rfl]
        rw [obindSome]
        rfl
      | cons m tl2 =>
        rw [show dumpInts (n :: m :: tl2) ++ rest =
            intChars n ++ (',' :: ' ' :: (dumpInts (m :: tl2) ++ rest)) from by
          simp [dumpInts]]
        rw [parseInts_succ]
        rw [if_neg (by rw [hct, List.cons_append]; simp [hc])]
        rw [parseInt_dump n (',' :: ' ' :: (dumpInts (m :: tl2) ++ rest)) rfl]
        show (parseInts f (dumpInts (m :: tl2) ++ rest)).map
            (fun t => ((n : Int) :: t.1, t.2)) = some (n :: m :: tl2, rest)
        rw [ih f rest hftl]
        rfl

mutual

/-- The parser is an exact inverse of the serializer: parsing the dump of
`v` (followed by any non-digit-starting remainder) with enough fuel yields
`v` and the remainder.  For `aa = false` (json) the value must be
JSON-serializable, since the json grammar has no array production. -/
theorem parse_dumpVal (aa : Bool) (v : PyData) : ∀ (f : Nat) (rest : List Char),
    needVal v ≤ f → noDigitStart rest = true → (aa = true ∨ jsonOk v = true) →
    parseVal aa f (dumpVal v ++ rest) = some (v, rest) := by
  cases v with
  | none =>
    intro f rest hf _ _
    cases f with
    | zero => simp [needVal] at hf
    | succ f => rfl
  | bool b =>
    intro f rest hf _ _
    cases f with
    | zero => simp [needVal] at hf
    | succ f => cases b <;> rfl
  | int n =>
    intro f rest hf hrest _
    cases f with
    | zero => simp [needVal] at hf
    | succ f =>
      rw [show dumpVal (PyData.int n) = intChars n from rfl]
      rw [parseVal_succ, if_pos (isIntStart_intChars n rest), parseInt_dump n rest hrest]
      rfl
  | str s =>
    intro f rest hf _ _
    cases f with
    | zero => simp [needVal] at hf
    | succ f =>
      rw [show dumpVal (PyData.str s) ++ rest = '"' :: (escList s.data ++ '"' :: rest) from by
        simp [dumpVal]]
      have hni : isIntStart ('"' :: (escList s.data ++ '"' :: rest)) = false := rfl
      rw [parseVal_succ, hni, if_neg Bool.false_ne_true]
      show (parseStrAux (escList s.data ++ '"' :: rest)).map
          (fun r => (PyData.str (String.mk r.1), r.2)) = some (PyData.str s, rest)
      rw [parseStr_esc]
      rfl
  | list xs =>
    intro f rest hf _ haa
    cases f with
    | zero => simp [needVal] at hf
    | succ f =>
      rw [show dumpVal (PyData.list xs) ++ rest = '[' :: (dumpItems xs ++ rest) from rfl]
      have hni : isIntStart ('[' :: (dumpItems xs ++ rest)) = false := rfl
      rw [parseVal_succ, hni, if_neg Bool.false_ne_true]
      show (parseItems aa f (dumpItems xs ++ rest)).map (fun r => (PyData.list r.1, r.2)) =
        some (PyData.list xs, rest)
      rw [parse_dumpItems aa xs f rest (by rw [needVal] at hf; omega) haa]
      rfl
  | dict xs =>
    intro f rest hf _ haa
    cases f with
    | zero => simp [needVal] at hf
    | succ f =>
      rw [show dumpVal (PyData.dict xs) ++ rest = '\x7b' :: (dumpMembers xs ++ rest) from rfl]
      have hni : isIntStart ('\x7b' :: (dumpMembers xs ++ rest)) = false := rfl
      rw [parseVal_succ, hni, if_neg Bool.false_ne_true]
      show (parseMembers aa f (dumpMembers xs ++ rest)).map (fun r => (PyData.dict r.1, r.2)) =
        some (PyData.dict xs, rest)
      rw [parse_dumpMembers aa xs f rest (by rw [needVal] at hf; omega) haa]
      rfl
  | array xs =>
    intro f rest hf _ haa
    cases f with
    | zero => simp [needVal] at hf
    | succ f =>
      have haaT : aa = true := by
        rcases haa with h | h
        · exact h
        · exact absurd h (by simp [jsonOk])
      subst haaT
      rw [show dumpVal (PyData.array xs) ++ rest =
          'a' :: 'r' :: 'r' :: 'a' :: 'y' :: '(' :: '[' :: (dumpInts xs ++ rest) from rfl]
      have hni : isIntStart
          ('a' :: 'r' :: 'r' :: 'a' :: 'y' :: '(' :: '[' :: (dumpInts xs ++ rest)) = false := rfl
      rw [parseVal_succ, hni, if_neg Bool.false_ne_true]
      show (parseInts f (dumpInts xs ++ rest)).map (fun r => (PyData.array r.1, r.2)) =
        some (PyData.array xs, rest)
      rw [parse_dumpInts xs f rest (by rw [needVal] at hf; omega)]
      rfl

theorem parse_dumpItems (aa : Bool) (xs : PyList) : ∀ (f : Nat) (rest : List Char),
    needItems xs ≤ f → (aa = true ∨ jsonOkList xs = true) →
    parseItems aa f (dumpItems xs ++ rest) = some (xs, rest) := by
  cases xs with
  | nil =>
    intro f rest hf _
    cases f with
    | zero => simp [needItems] at hf
    | succ f => rfl
  | cons hd tl =>
    intro f rest hf haa
    cases f with
    | zero => simp [needItems] at hf
    | succ f =>
      have hfhd : needVal hd ≤ f := by rw [needItems] at hf; omega
      have hftl : needItems tl ≤ f := by rw [needItems] at hf; omega
      have haahd : aa = true ∨ jsonOk hd = true := by
        rcases haa with h | h
        · exact Or.inl h
        · exact Or.inr ((Bool.and_eq_true _ _).mp h).1
      have haatl : aa = true ∨ jsonOkList tl = true := by
        rcases haa with h | h
        · exact Or.inl h
        · exact Or.inr ((Bool.and_eq_true _ _).mp h).2
      obtain ⟨c, t, hct, hc⟩ := dumpVal_head hd
      cases tl with
      | nil =>
        rw [show dumpItems (PyList.cons hd PyList.nil) ++ rest =
            dumpVal hd ++ (']' :: rest) from by simp [dumpItems]]
        rw [parseItems_succ]
        rw [if_neg (by rw [hct, List.cons_append]; simp [hc])]
        rw [parse_dumpVal aa hd f (']' :: rest) hfhd rfl haahd]
        rfl
      | cons hd2 tl2 =>
        rw [show dumpItems (PyList.cons hd (PyList.cons hd2 tl2)) ++ rest =
            dumpVal hd ++ (',' :: ' ' :: (dumpItems (PyList.cons hd2 tl2) ++ rest)) from by
          simp [dumpItems]]
        rw [parseItems_succ]
        rw [if_neg (by rw [hct, List.cons_append]; simp [hc])]
        rw [parse_dumpVal aa hd f
          (',' :: ' ' :: (dumpItems (PyList.cons hd2 tl2) ++ rest)) hfhd rfl haahd]
        show (parseItems aa f (dumpItems (PyList.cons hd2 tl2) ++ rest)).map
            (fun t => (PyList.cons hd t.1, t.2)) =
          some (PyList.cons hd (PyList.cons hd2 tl2), rest)
        rw [parse_dumpItems aa (PyList.cons hd2 tl2) f rest hftl haatl]
        rfl

theorem parse_dumpMembers (aa : Bool) (xs : PyPairs) : ∀ (f : Nat) (rest : List Char),
    needMembers xs ≤ f → (aa = true ∨ jsonOkPairs xs = true) →
    parseMembers aa f (dumpMembers xs ++ rest) = some (xs, rest) := by
  cases xs with
  | nil =>
    intro f rest hf _
    cases f with
    | zero => simp [needMembers] at hf
    | succ f => rfl
  | cons k v tl =>
    intro f rest hf haa
    cases f with
    | zero => simp [needMembers] at hf
    | succ f =>
      have hfv : needVal v ≤ f := by rw [needMembers] at hf; omega
      have hftl : needMembers tl ≤ f := by rw [needMembers] at hf; omega
      have haav : aa = true ∨ jsonOk v = true := by
        rcases haa with h | h
        · exact Or.inl h
        · exact Or.inr ((Bool.and_eq_true _ _).mp h).1
      have haatl : aa = true ∨ jsonOkPairs tl = true := by
        rcases haa with h | h
        · exact Or.inl h
        · exact Or.inr ((Bool.and_eq_true _ _).mp h).2
      cases tl with
      | nil =>
        rw [show dumpMembers (PyPairs.cons k v PyPairs.nil) ++ rest =
            '"' :: (escList k.data ++ '"' :: (':' :: ' ' :: (dumpVal v ++ '\x7d' :: rest)))
            from by simp [dumpMembers]]
        rw [parseMembers_succ]
        show (parseStrAux (escList k.data ++ '"' :: (':' :: ' ' :: (dumpVal v ++ '\x7d' :: rest)))).bind
            (fun ks =>
              if ks.2.take 2 = [':', ' '] then
                (parseVal aa f (ks.2.drop 2)).bind (fun w =>
                  if w.2.head? = some '\x7d' then
                    some (PyPairs.cons (String.mk ks.1) w.1 PyPairs.nil, w.2.tail)
                  else if w.2.take 2 = [',', ' '] then
                    (parseMembers aa f (w.2.drop 2)).map
                      (fun t => (PyPairs.cons (String.mk ks.1) w.1 t.1, t.2))
                  else Option.none)
              else Option.none) = some (PyPairs.cons k v PyPairs.nil, rest)
        rw [parseStr_esc]
        show (parseVal aa f (dumpVal v ++ '\x7d' :: rest)).bind (fun w =>
            if w.2.head? = some '\x7d' then
              some (PyPairs.cons (String.mk k.data) w.1 PyPairs.nil, w.2.tail)
            else if w.2.take 2 = [',', ' '] then
              (parseMembers aa f (w.2.drop 2)).map
                (fun t => (PyPairs.cons (String.mk k.data) w.1 t.1, t.2))
            else Option.none) = some (PyPairs.cons k v PyPairs.nil, rest)
        rw [parse_dumpVal aa v f ('\x7d' :: rest) hfv rfl haav]
        rfl
      | cons k2 v2 tl2 =>
        rw [show dumpMembers (PyPairs.cons k v (PyPairs.cons k2 v2 tl2)) ++ rest =
            '"' :: (escList k.data ++ '"' :: (':' :: ' ' ::
              (dumpVal v ++ ',' :: ' ' :: (dumpMembers (PyPairs.cons k2 v2 tl2) ++ rest))))
            from by simp [dumpMembers]]
        rw [parseMembers_succ]
        show (parseStrAux (escList k.data ++ '"' :: (':' :: ' ' ::
              (dumpVal v ++ ',' :: ' ' :: (dumpMembers (PyPairs.cons k2 v2 tl2) ++ rest))))).bind
            (fun ks =>
              if ks.2.take 2 = [':', ' '] then
                (parseVal aa f (ks.2.drop 2)).bind (fun w =>
                  if w.2.head? = some '\x7d' then
                    some (PyPairs.cons (String.mk ks.1) w.1 PyPairs.nil, w.2.tail)
                  else if w.2.take 2 = [',', ' '] then
                    (parseMembers aa f (w.2.drop 2)).map
                      (fun t => (PyPairs.cons (String.mk ks.1) w.1 t.1, t.2))
                  else Option.none)
              else Option.none) = some (PyPairs.cons k v (PyPairs.cons k2 v2 tl2), rest)
        rw [parseStr_esc]
        show (parseVal aa f (dumpVal v ++ ',' :: ' ' ::
              (dumpMembers (PyPairs.cons k2 v2 tl2) ++ rest))).bind (fun w =>
            if w.2.head? = some '\x7d' then
              some (PyPairs.cons (String.mk k.data) w.1 PyPairs.nil, w.2.tail)
            else if w.2.take 2 = [',', ' '] then
              (parseMembers aa f (w.2.drop 2)).map
                (fun t => (PyPairs.cons (String.mk k.data) w.1 t.1, t.2))
            else Option.none) = some (PyPairs.cons k v (PyPairs.cons k2 v2 tl2), rest)
        rw [parse_dumpVal aa v f
          (',' :: ' ' :: (dumpMembers (PyPairs.cons k2 v2 tl2) ++ rest)) hfv rfl haav]
        show (parseMembers aa f (dumpMembers (PyPairs.cons k2 v2 tl2) ++ rest)).map
            (fun t => (PyPairs.cons k v t.1, t.2)) =
          some (PyPairs.cons k v (PyPairs.cons k2 v2 tl2), rest)
        rw [parse_dumpMembers aa (PyPairs.cons k2 v2 tl2) f rest hftl haatl]
        rfl

end

theorem dumpVal_length_pos (v : PyData) : 1 ≤ (dumpVal v).length := by
  obtain ⟨c, t, hct, _⟩ := dumpVal_head v
  rw [hct]
  simp

theorem intChars_length_pos (n : Int) : 1 ≤ (intChars n).length := by
  obtain ⟨c, t, hct, _⟩ := intChars_head n
  rw [hct]
  simp

theorem needInts'_le (xs : List Int) : needInts' xs ≤ (dumpInts xs).length := by
  induction xs with
  | nil => decide
  | cons n tl ih =>
    have hp := intChars_length_pos n
    cases tl with
    | nil =>
      rw [needInts', needInts']
      have hlen : (dumpInts [n]).length = (intChars n).length + 2 := by
        simp [dumpInts]
      omega
    | cons m tl2 =>
      rw [needInts']
      have hlen : (dumpInts (n :: m :: tl2)).length =
          (intChars n).length + 2 + (dumpInts (m :: tl2)).length := by
        simp [dumpInts]
        omega
      omega

mutual

theorem needVal_le (v : PyData) : needVal v ≤ (dumpVal v).length := by
  cases v with
  | none => decide
  | bool b => cases b <;> decide
  | int n => exact dumpVal_length_pos (PyData.int n)
  | str s => exact dumpVal_length_pos (PyData.str s)
  | list xs =>
    have h := needItems_le xs
    have hlen : (dumpVal (PyData.list xs)).length = 1 + (dumpItems xs).length := by
      simp [dumpVal]
      omega
    rw [needVal]
    omega
  | dict xs =>
    have h := needMembers_le xs
    have hlen : (dumpVal (PyData.dict xs)).length = 1 + (dumpMembers xs).length := by
      simp [dumpVal]
      omega
    rw [needVal]
    omega
  | array xs =>
    have h := needInts'_le xs
    have hlen : (dumpVal (PyData.array xs)).length = 7 + (dumpInts xs).length := by
      simp [dumpVal]
      omega
    rw [needVal]
    omega

theorem needItems_le (xs : PyList) : needItems xs ≤ (dumpItems xs).length := by
  cases xs with
  | nil => decide
  | cons hd tl =>
    have h1 := needVal_le hd
    have hp := dumpVal_length_pos hd
    cases tl with
    | nil =>
      have hlen : (dumpItems (PyList.cons hd PyList.nil)).length = (dumpVal hd).length + 1 := by
        simp [dumpItems]
      rw [needItems, needItems]
      omega
    | cons hd2 tl2 =>
      have h2 := needItems_le (PyList.cons hd2 tl2)
      have hlen : (dumpItems (PyList.cons hd (PyList.cons hd2 tl2))).length =
          (dumpVal hd).length + 2 + (dumpItems (PyList.cons hd2 tl2)).length := by
        simp [dumpItems]
        omega
      rw [needItems]
      omega

theorem needMembers_le (xs : PyPairs) : needMembers xs ≤ (dumpMembers xs).length := by
  cases xs with
  | nil => decide
  | cons k v tl =>
    have h1 := needVal_le v
    have hp := dumpVal_length_pos v
    cases tl with
    | nil =>
      have hlen : (dumpMembers (PyPairs.cons k v PyPairs.nil)).length =
          (escList k.data).length + (dumpVal v).length + 5 := by
        simp [dumpMembers]
        omega
      rw [needMembers, needMembers]
      omega
    | cons k2 v2 tl2 =>
      have h2 := needMembers_le (PyPairs.cons k2 v2 tl2)
      have hlen : (dumpMembers (PyPairs.cons k v (PyPairs.cons k2 v2 tl2))).length =
          (escList k.data).length + (dumpVal v).length + 6 +
            (dumpMembers (PyPairs.cons k2 v2 tl2)).length := by
        simp [dumpMembers]
        omega
      rw [needMembers]
      omega

end

/-- `loads` inverts `dumpVal` on each format's domain. -/
theorem loads_dump (aa : Bool) (v : PyData) (haa : aa = true ∨ jsonOk v = true) :
    loads aa (dumpVal v) = some v := by
  rw [loads]
  have h := parse_dumpVal aa v ((dumpVal v).length + 1) [] (by have := needVal_le v; omega)
    rfl haa
  rw [List.append_nil] at h
  rw [h]

theorem decodeContent_encodeContent (comp : Bool) (cs : List Char) :
    decodeContent comp (encodeContent comp cs) = .ok cs := by
  cases comp with
  | false => rfl
  | true => rfl

/-- Reading back exactly the bytes the matching writer produced returns
the original data, for data in the format's domain. -/
theorem readWith_encode (f : SFormat) (comp : Bool) (data : PyData)
    (hdom : writeDomain f data = true) :
    readWith f (encodeContent comp (dumpVal data)) comp = .ok data := by
  cases f with
  | json =>
    show Readers.json (encodeContent comp (dumpVal data)) comp = .ok data
    rw [Readers.json, decodeContent_encodeContent]
    show (match loads false (dumpVal data) with
      | some v => (Except.ok v : Except PyErr PyData)
      | Option.none => Except.error (.valueError "Expecting value: line 1 column 1 (char 0)")) =
      Except.ok data
    rw [loads_dump false data (Or.inr hdom)]
  | pickle =>
    show Readers.pickle (encodeContent comp (dumpVal data)) comp = .ok data
    rw [Readers.pickle, decodeContent_encodeContent]
    show (match loads true (dumpVal data) with
      | some v => (Except.ok v : Except PyErr PyData)
      | Option.none => Except.error (.valueError "unpickling error")) = Except.ok data
    rw [loads_dump true data (Or.inl rfl)]
  | numpy =>
    show Readers.numpy (encodeContent comp (dumpVal data)) comp = .ok data
    rw [Readers.numpy, decodeContent_encodeContent]
    show (match loads true (dumpVal data) with
      | some v =>
        if v.isArray then (Except.ok v : Except PyErr PyData)
        else Except.error (.valueError "Failed to interpret file as a pickle")
      | Option.none => Except.error (.valueError "Failed to interpret file as a pickle")) =
      Except.ok data
    rw [loads_dump true data (Or.inl rfl)]
    show (if data.isArray then (Except.ok data : Except PyErr PyData)
      else Except.error (.valueError "Failed to interpret file as a pickle")) = Except.ok data
    rw [if_pos (show data.isArray = true from hdom)]

/-- A successful write stores the (possibly compressed) serialized bytes. -/
theorem writeWith_succeeds (f : SFormat) (data : PyData) (path : String) (comp : Bool)
    (fs : FS) (hdom : writeDomain f data = true) :
    writeWith f data path comp fs .succeeds =
      (.ok (), { fs with files := storeFile fs.files path (encodeContent comp (dumpVal data)) }) := by
  cases f with
  | json =>
    show Writers.json data path comp fs .succeeds = _
    rw [Writers.json, if_pos (show jsonOk data = true from hdom)]
    rfl
  | pickle => rfl
  | numpy =>
    show Writers.numpy data path comp fs .succeeds = _
    rw [Writers.numpy]
    show (if data.isArray then
        ioWrite fs path (encodeContent comp (dumpVal data)) .succeeds
      else
        ioWrite fs path []
          (.failAfterCreate (.valueError "Object arrays cannot be saved when allow_pickle=False"))) = _
    rw [if_pos (show data.isArray = true from hdom)]
    rfl

theorem lookup_storeFile (files : List (String × List Char)) (path : String) (c : List Char) :
    (storeFile files path c).lookup path = some c := by
  simp [storeFile, List.lookup_cons]

theorem lookup_eraseFile (files : List (String × List Char)) (path : String) :
    (eraseFile files path).lookup path = Option.none := by
  induction files with
  | nil => rfl
  | cons p t ih =>
    rw [eraseFile, List.filter_cons]
    by_cases h : p.1 = path
    · rw [if_neg (by simp [h])]
      exact ih
    · rw [if_pos (by simp [h])]
      rw [List.lookup_cons]
      have : (path == p.1) = false := by
        simp
        exact fun hc => h hc.symm
      rw [this]
      exact ih

theorem eraseFile_storeFile (files : List (String × List Char)) (path : String) (c : List Char) :
    eraseFile (storeFile files path c) path = eraseFile files path := by
  rw [storeFile, eraseFile, List.filter_cons]
  rw [if_neg (by simp)]
  rw [eraseFile, List.filter_filter]
  simp

theorem ioWrite_failAfter (fs : FS) (path : String) (content : List Char) (e : PyErr) :
    ioWrite fs path content (.failAfterCreate e) =
      (.error e, { fs with files := eraseFile fs.files path }) := by
  show removeAndReraise { fs with files := storeFile fs.files path [] } path e = _
  rw [removeAndReraise]
  rw [if_pos (by
    rw [show ({ fs with files := storeFile fs.files path [] } : FS).files =
      storeFile fs.files path [] from rfl, lookup_storeFile]
    rfl)]
  rw [show ({ fs with files := storeFile fs.files path [] } : FS).files =
    storeFile fs.files path [] from rfl, eraseFile_storeFile]

theorem ioWrite_failBefore_exists (fs : FS) (path : String) (content : List Char) (e : PyErr)
    (h : (fs.files.lookup path).isSome = true) :
    ioWrite fs path content (.failBeforeCreate e) =
      (.error e, { fs with files := eraseFile fs.files path }) := by
  show removeAndReraise fs path e = _
  rw [removeAndReraise, if_pos h]

theorem ioWrite_failBefore_missing (fs : FS) (path : String) (content : List Char) (e : PyErr)
    (h : fs.files.lookup path = Option.none) :
    ioWrite fs path content (.failBeforeCreate e) =
      (.error (.fileNotFoundError ("[Errno 2] No such file or directory: " ++ path)), fs) := by
  show removeAndReraise fs path e = _
  rw [removeAndReraise, if_neg (by rw [h]; simp)]

theorem writeWith_failAfter (f : SFormat) (data : PyData) (path : String) (comp : Bool)
    (fs : FS) (e : PyErr) (hdom : writeDomain f data = true) :
    writeWith f data path comp fs (.failAfterCreate e) =
      (.error e, { fs with files := eraseFile fs.files path }) := by
  cases f with
  | json =>
    show Writers.json data path comp fs (.failAfterCreate e) = _
    rw [Writers.json, if_pos (show jsonOk data = true from hdom)]
    exact ioWrite_failAfter fs path _ e
  | pickle => exact ioWrite_failAfter fs path (encodeContent comp (dumpVal data)) e
  | numpy => exact ioWrite_failAfter fs path (encodeContent comp (dumpVal data)) e

theorem writeWith_failBefore (f : SFormat) (data : PyData) (path : String) (comp : Bool)
    (fs : FS) (e : PyErr) (hdom : writeDomain f data = true) :
    writeWith f data path comp fs (.failBeforeCreate e) =
      ioWrite fs path (encodeContent comp (dumpVal data)) (.failBeforeCreate e) := by
  cases f with
  | json =>
    show Writers.json data path comp fs (.failBeforeCreate e) = _
    rw [Writers.json, if_pos (show jsonOk data = true from hdom)]
  | pickle => rfl
  | numpy => rfl

/-- C4 counterexample: when `open()` itself fails (here: a permission
error before any file is created), the unguarded `os.remove` in the
writers' `except` block raises `FileNotFoundError`, which replaces the
original error — the caller does not see the true cause. -/
theorem C4_cex_removal_failure_masks_original :
    (Writers.pickle (PyData.int 1) "d/f.cache.pickle" false ⟨[], ["d"]⟩
        (.failBeforeCreate (.ioError "PermissionError"))).1 =
      .error (.fileNotFoundError "[Errno 2] No such file or directory: d/f.cache.pickle") ∧
    (Writers.pickle (PyData.int 1) "d/f.cache.pickle" false ⟨[], ["d"]⟩
        (.failBeforeCreate (.ioError "PermissionError"))).1 ≠
      .error (.ioError "PermissionError") := by
  constructor
  · rfl
  · intro h
    exact PyErr.noConfusion (Except.error.inj h)

/-- C4 (amended): a write failure raised after the file was created
removes the partial file and re-raises the original error unmodified, so
no readable-but-corrupt file remains; but the `os.remove` in the handler
is unconditional, so when the failure precedes file creation, either a
pre-existing file at the path is deleted (original error still re-raised)
or, if no file exists there, `os.remove`'s `FileNotFoundError` surfaces
in place of the original error. -/
theorem C4_write_failure_cleanup (f : SFormat) (data : PyData) (path : String)
    (comp : Bool) (fs : FS) (e : PyErr) (hdom : writeDomain f data = true) :
    ((writeWith f data path comp fs (.failAfterCreate e)).1 = .error e ∧
      (writeWith f data path comp fs (.failAfterCreate e)).2.files.lookup path =
        Option.none) ∧
    ((fs.files.lookup path).isSome = true →
      (writeWith f data path comp fs (.failBeforeCreate e)).1 = .error e ∧
      (writeWith f data path comp fs (.failBeforeCreate e)).2.files.lookup path =
        Option.none) ∧
    (fs.files.lookup path = Option.none →
      (writeWith f data path comp fs (.failBeforeCreate e)).1 =
        .error (.fileNotFoundError ("[Errno 2] No such file or directory: " ++ path)) ∧
      (writeWith f data path comp fs (.failBeforeCreate e)).2 = fs) := by
  refine ⟨?_, fun h => ?_, fun h => ?_⟩
  · rw [writeWith_failAfter f data path comp fs e hdom]
    exact ⟨rfl, lookup_eraseFile fs.files path⟩
  · rw [writeWith_failBefore f data path comp fs e hdom,
      ioWrite_failBefore_exists fs path _ e h]
    exact ⟨rfl, lookup_eraseFile fs.files path⟩
  · rw [writeWith_failBefore f data path comp fs e hdom,
      ioWrite_failBefore_missing fs path _ e h]
    exact ⟨rfl, rfl⟩

theorem C4_write_failure_cleanup_witness :
    (Writers.pickle (PyData.int 3) "p" false ⟨[("p", ['x'])], []⟩
        (.failAfterCreate (.ioError "No space left on device"))).1 =
      .error (.ioError "No space left on device") ∧
    (Writers.pickle (PyData.int 3) "p" false ⟨[("p", ['x'])], []⟩
        (.failAfterCreate (.ioError "No space left on device"))).2.files.lookup "p" =
      Option.none :=
  (C4_write_failure_cleanup .pickle (PyData.int 3) "p" false ⟨[("p", ['x'])], []⟩
    (.ioError "No space left on device") rfl).1

/-- A sample nested JSON-compatible value for witnesses. -/
def sampleJson : PyData :=
  PyData.dict (PyPairs.cons "a"
    (PyData.list (PyList.cons (PyData.int 10)
      (PyList.cons (PyData.str "x,]\" z")
        (PyList.cons PyData.none (PyList.cons (PyData.bool true) PyList.nil)))))
    (PyPairs.cons "b" (PyData.int (-7)) PyPairs.nil))

/-- C8: for every supported serialization format, with or without the
compression wrapper, reading back the file content written by the
matching writer returns a value equal to the written data, for data in
that format's documented domain. -/
theorem C8_serialization_roundtrip (f : SFormat) (comp : Bool) (data : PyData)
    (path : String) (fs : FS) (hdom : writeDomain f data = true) :
    (writeWith f data path comp fs .succeeds).1 = .ok () ∧
    (writeWith f data path comp fs .succeeds).2.files.lookup path =
      some (encodeContent comp (dumpVal data)) ∧
    readWith f (encodeContent comp (dumpVal data)) comp = .ok data := by
  rw [writeWith_succeeds f data path comp fs hdom]
  exact ⟨rfl, lookup_storeFile fs.files path _, readWith_encode f comp data hdom⟩

theorem C8_serialization_roundtrip_witness :
    readWith .json (encodeContent true (dumpVal sampleJson)) true = .ok sampleJson ∧
    readWith .numpy (encodeContent false (dumpVal (PyData.array [3, -1, 4]))) false =
      .ok (PyData.array [3, -1, 4]) :=
  ⟨(C8_serialization_roundtrip .json true sampleJson "d/f.cache.json.gzip" ⟨[], []⟩
      (by decide)).2.2,
   (C8_serialization_roundtrip .numpy false (PyData.array [3, -1, 4]) "d/f.cache.numpy"
      ⟨[], []⟩ (by decide)).2.2⟩

/-! ### Behaviour of `method_wrapper` -/

theorem resolveCachedir_quiet (deco : DecoConfig) (arg0 : Option (Option String)) (kw : Kwargs) :
    (resolveCachedir deco arg0 kw).2.quiet = kw.quiet := by
  cases arg0 <;> rfl

theorem resolveCachedir_cachedir_some (deco : DecoConfig) (v : Option String) (kw : Kwargs) :
    (resolveCachedir deco (some v) kw).2.cachedir = kw.cachedir := rfl

theorem resolvePops_kw_quiet (deco : DecoConfig) (kw : Kwargs) :
    (resolvePops deco kw).2.quiet = kw.quiet := rfl

theorem resolvePops_kw_cachedir (deco : DecoConfig) (kw : Kwargs) :
    (resolvePops deco kw).2.cachedir = kw.cachedir := rfl

theorem resolveFmt_kw_quiet (deco : DecoConfig) (kw : Kwargs) :
    (resolveFmt deco kw).2.quiet = kw.quiet := by
  unfold resolveFmt
  split <;> rfl

theorem resolveFmt_kw_cachedir (deco : DecoConfig) (kw : Kwargs) :
    (resolveFmt deco kw).2.cachedir = kw.cachedir := by
  unfold resolveFmt
  split <;> rfl

theorem method_wrapper_bypass (deco : DecoConfig) (mname : String) (method : Kwargs → PyData)
    (arg0 : Option (Option String)) (kw : Kwargs) (fs : FS) (att : WAttempt)
    (htr : truthy (resolveCachedir deco arg0 kw).1 = false) :
    method_wrapper deco mname method arg0 kw fs att =
      { result := .ok (method (resolveCachedir deco arg0 kw).2), fs := fs, executed := true,
        msgs := if deco.quiet then [] else [noCacheMsg mname],
        calledWith := some (resolveCachedir deco arg0 kw).2 } := by
  rw [method_wrapper, if_pos htr]

theorem method_wrapper_no_caching (deco : DecoConfig) (mname : String)
    (method : Kwargs → PyData) (arg0 : Option (Option String)) (kw : Kwargs) (fs : FS)
    (att : WAttempt) (htr : truthy (resolveCachedir deco arg0 kw).1 = true)
    (hnc : (resolvePops deco (resolveCachedir deco arg0 kw).2).1.no_caching = true) :
    method_wrapper deco mname method arg0 kw fs att =
      { result := .ok (method (resolvePops deco (resolveCachedir deco arg0 kw).2).2),
        fs := fs, executed := true, msgs := [],
        calledWith := some (resolvePops deco (resolveCachedir deco arg0 kw).2).2 } := by
  rw [method_wrapper, if_neg (by simp [htr]), if_pos hnc]

theorem method_wrapper_cached (deco : DecoConfig) (mname : String) (method : Kwargs → PyData)
    (arg0 : Option (Option String)) (kw : Kwargs) (fs : FS) (att : WAttempt)
    (htr : truthy (resolveCachedir deco arg0 kw).1 = true)
    (hnc : (resolvePops deco (resolveCachedir deco arg0 kw).2).1.no_caching = false) :
    method_wrapper deco mname method arg0 kw fs att =
      cachedBranch deco mname method ((resolveCachedir deco arg0 kw).1.getD "")
        (resolvePops deco (resolveCachedir deco arg0 kw).2).1
        (resolvePops deco (resolveCachedir deco arg0 kw).2).2 fs att := by
  rw [method_wrapper, if_neg (by simp [htr]), if_neg (by simp [hnc])]

theorem hitOrMiss_hit (method : Kwargs → PyData) (r : Resolved) (fr : FmtRes) (kw3 : Kwargs)
    (quiet : Bool) (path : String) (fs1 : FS) (mk1 : List String) (att : WAttempt)
    (c : List Char) (f : SFormat) (hc : fs1.files.lookup path = some c)
    (hinv : r.invalidate = false) (hf : chooseFormat fr.format = .ok f) :
    hitOrMiss method r fr kw3 quiet path fs1 mk1 att =
      { result := (readWith f c fr.compression).map r.cbHit, fs := fs1, executed := false,
        msgs := mk1, calledWith := Option.none } := by
  rw [hitOrMiss, if_pos (by rw [hc, hinv]; rfl), hf, hc]
  show (match readWith f c fr.compression with
    | Except.error e => ({ result := Except.error e, fs := fs1, executed := false, msgs := mk1, calledWith := Option.none } : CallResult)
    | Except.ok v => ({ result := Except.ok (r.cbHit v), fs := fs1, executed := false, msgs := mk1, calledWith := Option.none } : CallResult)) =
    { result := (readWith f c fr.compression).map r.cbHit, fs := fs1, executed := false, msgs := mk1, calledWith := Option.none }
  cases hr : readWith f c fr.compression <;> rfl

theorem hitOrMiss_hit_not_executed (method : Kwargs → PyData) (r : Resolved) (fr : FmtRes)
    (kw3 : Kwargs) (quiet : Bool) (path : String) (fs1 : FS) (mk1 : List String)
    (att : WAttempt)
    (hcond : ((fs1.files.lookup path).isSome && !r.invalidate) = true) :
    (hitOrMiss method r fr kw3 quiet path fs1 mk1 att).executed = false ∧
    (hitOrMiss method r fr kw3 quiet path fs1 mk1 att).fs = fs1 := by
  rw [hitOrMiss, if_pos hcond]
  constructor
  · split
    · rfl
    · split <;> rfl
  · split
    · rfl
    · split <;> rfl

theorem hitOrMiss_miss (method : Kwargs → PyData) (r : Resolved) (fr : FmtRes) (kw3 : Kwargs)
    (quiet : Bool) (path : String) (fs1 : FS) (mk1 : List String) (att : WAttempt)
    (hcond : ((fs1.files.lookup path).isSome && !r.invalidate) = false) :
    hitOrMiss method r fr kw3 quiet path fs1 mk1 att =
      missPath method r fr kw3 quiet path fs1 mk1 att := by
  rw [hitOrMiss, if_neg (by simp [hcond])]

theorem missPath_ok (method : Kwargs → PyData) (r : Resolved) (fr : FmtRes) (kw3 : Kwargs)
    (quiet : Bool) (path : String) (fs1 : FS) (mk1 : List String) (f : SFormat)
    (hf : chooseFormat fr.format = .ok f) (hdom : writeDomain f (method kw3) = true) :
    missPath method r fr kw3 quiet path fs1 mk1 .succeeds =
      { result := .ok (r.cbMiss (method kw3)),
        fs := { fs1 with files := storeFile fs1.files path (encodeContent fr.compression (dumpVal (method kw3))) },
        executed := true, msgs := mk1 ++ (if quiet then [] else [generatingMsg path]),
        calledWith := some kw3 } := by
  rw [missPath, hf]
  simp only [writeWith_succeeds f (method kw3) path fr.compression fs1 hdom]

theorem missPath_executed (method : Kwargs → PyData) (r : Resolved) (fr : FmtRes)
    (kw3 : Kwargs) (quiet : Bool) (path : String) (fs1 : FS) (mk1 : List String)
    (att : WAttempt) :
    (missPath method r fr kw3 quiet path fs1 mk1 att).executed = true ∧
    (missPath method r fr kw3 quiet path fs1 mk1 att).msgs =
      mk1 ++ (if quiet then [] else [generatingMsg path]) ∧
    (missPath method r fr kw3 quiet path fs1 mk1 att).calledWith = some kw3 := by
  unfold missPath
  refine ⟨?_, ?_, ?_⟩ <;> (split <;> try rfl) <;> (split <;> rfl)

theorem mkdirFS_files (dir : String) (fs : FS) : (mkdirFS dir fs).files = fs.files := by
  rw [mkdirFS]
  split <;> rfl

theorem mkdirFS_contains (dir : String) (fs : FS) :
    ((mkdirFS dir fs).dirs.contains dir) = true := by
  rw [mkdirFS]
  split
  · next h => exact h
  · simp [List.contains_cons]

theorem mkdirFS_idem (dir : String) (fs : FS) (h : fs.dirs.contains dir = true) :
    mkdirFS dir fs = fs := by
  rw [mkdirFS, if_pos h]

theorem hitOrMiss_calledWith (method : Kwargs → PyData) (r : Resolved) (fr : FmtRes)
    (kw3 : Kwargs) (quiet : Bool) (path : String) (fs1 : FS) (mk1 : List String)
    (att : WAttempt) :
    (hitOrMiss method r fr kw3 quiet path fs1 mk1 att).calledWith = Option.none ∨
    (hitOrMiss method r fr kw3 quiet path fs1 mk1 att).calledWith = some kw3 := by
  rw [hitOrMiss]
  split
  · split
    · exact Or.inl rfl
    · split <;> exact Or.inl rfl
  · exact Or.inr (missPath_executed method r fr kw3 quiet path fs1 mk1 att).2.2

theorem method_wrapper_calledWith (deco : DecoConfig) (mname : String)
    (method : Kwargs → PyData) (arg0 : Option (Option String)) (kw : Kwargs) (fs : FS)
    (att : WAttempt) :
    (method_wrapper deco mname method arg0 kw fs att).calledWith = Option.none ∨
    (method_wrapper deco mname method arg0 kw fs att).calledWith =
      some (resolveCachedir deco arg0 kw).2 ∨
    (method_wrapper deco mname method arg0 kw fs att).calledWith =
      some (resolvePops deco (resolveCachedir deco arg0 kw).2).2 ∨
    (method_wrapper deco mname method arg0 kw fs att).calledWith =
      some (resolveFmt deco (resolvePops deco (resolveCachedir deco arg0 kw).2).2).2 := by
  rw [method_wrapper]
  split
  · exact Or.inr (Or.inl rfl)
  · split
    · exact Or.inr (Or.inr (Or.inl rfl))
    · rw [cachedBranch]
      rcases hitOrMiss_calledWith method _ _ _ deco.quiet _ _ _ att with hcw | hcw
      · exact Or.inl hcw
      · exact Or.inr (Or.inr (Or.inr hcw))

theorem method_wrapper_resolved (deco : DecoConfig) (mname : String)
    (method : Kwargs → PyData) (arg0 : Option (Option String)) (kw : Kwargs) (r : Resolved)
    (kw2 : Kwargs) (fr : FmtRes) (kw3 : Kwargs) (dir path : String) (fs0 : FS)
    (att : WAttempt)
    (htr : truthy (resolveCachedir deco arg0 kw).1 = true)
    (hrp : resolvePops deco (resolveCachedir deco arg0 kw).2 = (r, kw2))
    (hnc : r.no_caching = false)
    (hfr : resolveFmt deco kw2 = (fr, kw3))
    (hdir : (resolveCachedir deco arg0 kw).1.getD "" = dir)
    (hpath : resolvedPath mname r fr dir = path) :
    method_wrapper deco mname method arg0 kw fs0 att =
      hitOrMiss method r fr kw3 deco.quiet path (mkdirFS dir fs0) (mkdirMsgs dir fs0) att := by
  have hr1 : (resolvePops deco (resolveCachedir deco arg0 kw).2).1 = r := by rw [hrp]
  have hr2 : (resolvePops deco (resolveCachedir deco arg0 kw).2).2 = kw2 := by rw [hrp]
  have hf1 : (resolveFmt deco kw2).1 = fr := by rw [hfr]
  have hf2 : (resolveFmt deco kw2).2 = kw3 := by rw [hfr]
  rw [method_wrapper_cached deco mname method arg0 kw fs0 att htr (by rw [hr1]; exact hnc),
    cachedBranch, hdir, hr1, hr2, hf1, hf2, hpath]

/-- C10: keyword arguments the decorator does not consume on a path are
forwarded unchanged to the wrapped function — (i) a call-time `quiet`
keyword is never removed from the kwargs on any path; (ii) when the
first positional argument carries a `cachedir` attribute, a call-time
`cachedir` keyword is not removed; (iii) on the no-cache-directory
bypass path the wrapped function receives kwargs that differ from the
supplied ones at most in the `cachedir` entry, so `invalidate`,
`no_caching`, `cache_name`, `cache_comment`, both callbacks,
`cache_format`, `cache_ext` and `cache_compression` all reach it. -/
theorem C10_kwargs_forwarding (deco : DecoConfig) (mname : String) (method : Kwargs → PyData)
    (arg0 : Option (Option String)) (kw : Kwargs) (fs : FS) (att : WAttempt) :
    (∀ kw2, (method_wrapper deco mname method arg0 kw fs att).calledWith = some kw2 →
      kw2.quiet = kw.quiet) ∧
    (∀ v kw2, (method_wrapper deco mname method (some v) kw fs att).calledWith = some kw2 →
      kw2.cachedir = kw.cachedir) ∧
    (truthy (resolveCachedir deco arg0 kw).1 = false →
      (method_wrapper deco mname method arg0 kw fs att).calledWith =
        some { kw with cachedir := (resolveCachedir deco arg0 kw).2.cachedir }) := by
  refine ⟨?_, ?_, ?_⟩
  · intro kw2 h
    rcases method_wrapper_calledWith deco mname method arg0 kw fs att with hcw | hcw | hcw | hcw
    · rw [hcw] at h
      exact Option.noConfusion h
    · rw [hcw] at h
      injection h with h2
      subst h2
      exact resolveCachedir_quiet deco arg0 kw
    · rw [hcw] at h
      injection h with h2
      subst h2
      rw [resolvePops_kw_quiet, resolveCachedir_quiet]
    · rw [hcw] at h
      injection h with h2
      subst h2
      rw [resolveFmt_kw_quiet, resolvePops_kw_quiet, resolveCachedir_quiet]
  · intro v kw2 h
    rcases method_wrapper_calledWith deco mname method (some v) kw fs att with hcw | hcw | hcw | hcw
    · rw [hcw] at h
      exact Option.noConfusion h
    · rw [hcw] at h
      injection h with h2
      subst h2
      exact resolveCachedir_cachedir_some deco v kw
    · rw [hcw] at h
      injection h with h2
      subst h2
      rw [resolvePops_kw_cachedir, resolveCachedir_cachedir_some]
    · rw [hcw] at h
      injection h with h2
      subst h2
      rw [resolveFmt_kw_cachedir, resolvePops_kw_cachedir, resolveCachedir_cachedir_some]
  · intro htr
    rw [method_wrapper_bypass deco mname method arg0 kw fs att htr]
    cases arg0 <;> rfl

theorem C10_kwargs_forwarding_witness :
    (method_wrapper {} "f" (fun _ => PyData.int 0) Option.none
        { cachedir := some (some ""), quiet := some true, invalidate := some true,
          cache_format := some "pickle" } ⟨[], []⟩ .succeeds).calledWith =
      some { quiet := some true, invalidate := some true, cache_format := some "pickle" } := by
  have h := C10_kwargs_forwarding {} "f" (fun _ => PyData.int 0) Option.none
    { cachedir := some (some ""), quiet := some true, invalidate := some true,
      cache_format := some "pickle" } ⟨[], []⟩ .succeeds
  exact h.2.2 rfl

/-- C5 counterexample: with `cache_format='yaml'` on a fresh directory
the call does raise the `CacheError`, but only after the missing cache
directory has been created — a filesystem mutation preceding the error —
and an unrecognized `cache_ext='foo'` raises no `CacheError` at all: the
format resolves to `None` and `getattr` raises `TypeError` instead. -/
theorem C5_cex_mkdir_precedes_cacheerror_and_bad_ext_typeerror :
    (method_wrapper { cachedir := some "d", cache_format := "yaml", quiet := true } "f"
        (fun _ => PyData.int 0) Option.none {} ⟨[], []⟩ .succeeds).result =
      .error (.cacheError "\"yaml\" is not a supported extension") ∧
    (method_wrapper { cachedir := some "d", cache_format := "yaml", quiet := true } "f"
        (fun _ => PyData.int 0) Option.none {} ⟨[], []⟩ .succeeds).fs.dirs = ["d"] ∧
    (method_wrapper { cachedir := some "d", cache_ext := some "foo", quiet := true } "f"
        (fun _ => PyData.int 0) Option.none {} ⟨[], []⟩ .succeeds).result =
      .error (.typeError "attribute name must be string, not 'NoneType'") :=
  ⟨rfl, rfl, rfl⟩

/-- C5 (amended): an unsupported `cache_format` token raises a
`CacheError` naming the token and is never silently replaced by a
default format; but the error is raised only after the cache directory
has been created when missing (the call below mutates the filesystem
before failing), and an unrecognized `cache_ext` does not produce a
`CacheError`: the format regex yields `None`, so `getattr` raises
`TypeError` instead. -/
theorem C5_unsupported_format (deco : DecoConfig) (mname : String) (method : Kwargs → PyData)
    (arg0 : Option (Option String)) (kw : Kwargs) (fs0 : FS) (att : WAttempt)
    (s dir path : String) (r : Resolved) (kw2 kw3 : Kwargs) (fr : FmtRes)
    (hs1 : s ≠ "json") (hs2 : s ≠ "pickle") (hs3 : s ≠ "numpy")
    (htr : truthy (resolveCachedir deco arg0 kw).1 = true)
    (hrp : resolvePops deco (resolveCachedir deco arg0 kw).2 = (r, kw2))
    (hnc : r.no_caching = false)
    (hfr : resolveFmt deco kw2 = (fr, kw3))
    (hfmt : fr.format = some s)
    (hdir : (resolveCachedir deco arg0 kw).1.getD "" = dir)
    (hpath : resolvedPath mname r fr dir = path)
    (hnofile : fs0.files.lookup path = Option.none) :
    chooseFormat fr.format =
      .error (.cacheError ("\"" ++ s ++ "\" is not a supported extension")) ∧
    (method_wrapper deco mname method arg0 kw fs0 att).result =
      .error (.cacheError ("\"" ++ s ++ "\" is not a supported extension")) ∧
    ((method_wrapper deco mname method arg0 kw fs0 att).fs.dirs.contains dir) = true ∧
    (∀ e : String, regexSearchFmt e.data = Option.none →
      (resolveFmt deco { kw2 with cache_ext := some (some e) }).1.format = Option.none) ∧
    chooseFormat Option.none =
      .error (.typeError "attribute name must be string, not 'NoneType'") := by
  have hcf : chooseFormat fr.format =
      .error (.cacheError ("\"" ++ s ++ "\" is not a supported extension")) := by
    rw [hfmt]
    simp [chooseFormat, hs1, hs2, hs3]
  have hcond : (((mkdirFS dir fs0).files.lookup path).isSome && !r.invalidate) = false := by
    rw [mkdirFS_files, hnofile]
    rfl
  have hmw : method_wrapper deco mname method arg0 kw fs0 att =
      missPath method r fr kw3 deco.quiet path (mkdirFS dir fs0) (mkdirMsgs dir fs0) att := by
    rw [method_wrapper_resolved deco mname method arg0 kw r kw2 fr kw3 dir path fs0 att
      htr hrp hnc hfr hdir hpath,
      hitOrMiss_miss method r fr kw3 deco.quiet path (mkdirFS dir fs0) (mkdirMsgs dir fs0)
        att hcond]
  refine ⟨hcf, ?_, ?_, ?_, rfl⟩
  · rw [hmw, missPath, hcf]
  · rw [hmw, missPath, hcf]
    exact mkdirFS_contains dir fs0
  · intro e he
    exact he

theorem C5_unsupported_format_witness :
    (method_wrapper { cachedir := some "d", cache_format := "yaml", quiet := true } "f"
        (fun _ => PyData.int 1) Option.none {} ⟨[], []⟩ .succeeds).result =
      .error (.cacheError "\"yaml\" is not a supported extension") ∧
    ((method_wrapper { cachedir := some "d", cache_format := "yaml", quiet := true } "f"
        (fun _ => PyData.int 1) Option.none {} ⟨[], []⟩ .succeeds).fs.dirs.contains "d") =
      true := by
  have h := C5_unsupported_format
    { cachedir := some "d", cache_format := "yaml", quiet := true } "f"
    (fun _ => PyData.int 1) Option.none {} ⟨[], []⟩ .succeeds "yaml" "d" "d/f.cache.yaml.gzip"
    { invalidate := false, no_caching := false, cache_name := Option.none,
      cache_comment := some "", cbMiss := id, cbHit := id } {} {}
    { cache_ext := Option.none, compression := true, format := some "yaml" }
    (by decide) (by decide) (by decide) rfl rfl rfl rfl rfl rfl rfl rfl
  exact ⟨h.2.1, h.2.2.1⟩

/-- C9 counterexample: `quiet` is never popped from the call-time kwargs
and every diagnostic is guarded by the decoration-time `local_quiet`
only, so `quiet=True` supplied at call time does not suppress the
per-miss generating notice (first conjunct), and `quiet=False` at call
time does not re-enable it under a quiet decoration (second conjunct). -/
theorem C9_cex_call_time_quiet_ignored :
    (method_wrapper { cachedir := some "d" } "f" (fun _ => PyData.int 0) Option.none
        { quiet := some true } ⟨[], ["d"]⟩ .succeeds).msgs =
      [generatingMsg "d/f.cache.json.gzip"] ∧
    (method_wrapper { cachedir := some "d", quiet := true } "f" (fun _ => PyData.int 0)
        Option.none { quiet := some false } ⟨[], ["d"]⟩ .succeeds).msgs = [] :=
  ⟨rfl, rfl⟩

/-- C9 (amended): for the options the wrapper pops — `cachedir` (when
the first positional argument has no such attribute), `invalidate`,
`no_caching`, `cache_name`, `cache_comment`, both callbacks, and (for a
`None` extension) `cache_format` and `cache_compression` — a call-time
keyword takes precedence over the per-decoration default, which stands
in for the global default when the keyword is absent; but `quiet` is
decoration-time only: on a miss the generating notice is governed by
`deco.quiet` for every call-time kwargs `kw`, including any call-time
`quiet` value. -/
theorem C9_config_precedence_quiet_decoration_only (deco : DecoConfig) (mname : String)
    (method : Kwargs → PyData) (arg0 : Option (Option String)) (kw : Kwargs) (fs0 : FS)
    (att : WAttempt) (r : Resolved) (kw2 kw3 : Kwargs) (fr : FmtRes) (dir path : String)
    (htr : truthy (resolveCachedir deco arg0 kw).1 = true)
    (hrp : resolvePops deco (resolveCachedir deco arg0 kw).2 = (r, kw2))
    (hnc : r.no_caching = false)
    (hfr : resolveFmt deco kw2 = (fr, kw3))
    (hdir : (resolveCachedir deco arg0 kw).1.getD "" = dir)
    (hpath : resolvedPath mname r fr dir = path)
    (hmiss : ((fs0.files.lookup path).isSome && !r.invalidate) = false) :
    (∀ d, (resolveCachedir deco Option.none { kw with cachedir := some d }).1 = d) ∧
    (resolveCachedir deco Option.none { kw with cachedir := Option.none }).1 =
      deco.cachedir ∧
    (∀ b, (resolvePops deco { kw with invalidate := some b }).1.invalidate = b) ∧
    (resolvePops deco { kw with invalidate := Option.none }).1.invalidate =
      deco.invalidate ∧
    (∀ b, (resolvePops deco { kw with no_caching := some b }).1.no_caching = b) ∧
    (resolvePops deco { kw with no_caching := Option.none }).1.no_caching =
      deco.no_caching ∧
    (∀ n, (resolvePops deco { kw with cache_name := some n }).1.cache_name = n) ∧
    (resolvePops deco { kw with cache_name := Option.none }).1.cache_name =
      deco.cache_name ∧
    (∀ c, (resolvePops deco { kw with cache_comment := some c }).1.cache_comment = c) ∧
    (resolvePops deco { kw with cache_comment := Option.none }).1.cache_comment =
      some (deco.cache_comment.getD "") ∧
    (∀ g, (resolvePops deco { kw with callback_func_miss := some g }).1.cbMiss = g) ∧
    (∀ g, (resolvePops deco { kw with callback_func_hit := some g }).1.cbHit = g) ∧
    (deco.cache_ext = Option.none →
      (∀ s, (resolveFmt deco
        { kw with cache_ext := Option.none, cache_format := some s }).1.format = some s) ∧
      (resolveFmt deco
        { kw with cache_ext := Option.none, cache_format := Option.none }).1.format =
        some deco.cache_format ∧
      (∀ b, (resolveFmt deco
        { kw with cache_ext := Option.none, cache_compression := some b }).1.compression =
        b)) ∧
    (method_wrapper deco mname method arg0 kw fs0 att).msgs =
      mkdirMsgs dir fs0 ++ (if deco.quiet then [] else [generatingMsg path]) := by
  have hcond : (((mkdirFS dir fs0).files.lookup path).isSome && !r.invalidate) = false := by
    rw [mkdirFS_files]
    exact hmiss
  refine ⟨fun d => rfl, rfl, fun b => rfl, rfl, fun b => rfl, rfl, fun n => rfl, rfl,
    fun c => rfl, rfl, fun g => rfl, fun g => rfl, fun hext => ⟨?_, ?_, ?_⟩, ?_⟩
  · intro s
    simp [resolveFmt, hext]
  · simp [resolveFmt, hext]
  · intro b
    simp [resolveFmt, hext]
  · rw [method_wrapper_resolved deco mname method arg0 kw r kw2 fr kw3 dir path fs0 att
      htr hrp hnc hfr hdir hpath,
      hitOrMiss_miss method r fr kw3 deco.quiet path (mkdirFS dir fs0) (mkdirMsgs dir fs0)
        att hcond]
    exact (missPath_executed method r fr kw3 deco.quiet path (mkdirFS dir fs0)
      (mkdirMsgs dir fs0) att).2.1

theorem C9_config_precedence_quiet_decoration_only_witness :
    (method_wrapper { cachedir := some "d" } "f" (fun _ => PyData.int 0) Option.none
        { quiet := some true } ⟨[], ["d"]⟩ .succeeds).msgs =
      [generatingMsg "d/f.cache.json.gzip"] ∧
    (resolvePops { cachedir := some "d" }
        { quiet := some true, invalidate := some true }).1.invalidate = true := by
  have h := C9_config_precedence_quiet_decoration_only { cachedir := some "d" } "f"
    (fun _ => PyData.int 0) Option.none { quiet := some true } ⟨[], ["d"]⟩ .succeeds
    { invalidate := false, no_caching := false, cache_name := Option.none,
      cache_comment := some "", cbMiss := id, cbHit := id }
    { quiet := some true } { quiet := some true }
    { cache_ext := Option.none, compression := true, format := some "json" }
    "d" "d/f.cache.json.gzip" rfl rfl rfl rfl rfl rfl rfl
  exact ⟨h.2.2.2.2.2.2.2.2.2.2.2.2.2, h.2.2.1 true⟩

/-- C1: for an invocation with a resolvable cache directory, `no_caching`
off and a resolvable configuration — (i) the wrapped method executes iff
the resolved cache path does not exist or invalidation was requested;
(ii) on a hit the returned value is read from the cache file (through
the hit callback) and the wrapped method does not run, with the stored
files untouched; (iii) calling twice on a cold cache executes the method
exactly once, the second call being a pure read of the first call's
value; (iv) with `invalidate` set the method re-runs and the existing
cache file is overwritten. -/
theorem C1_hit_miss_semantics (deco : DecoConfig) (mname : String) (method : Kwargs → PyData)
    (arg0 : Option (Option String)) (kw : Kwargs) (fs0 : FS) (r : Resolved) (kw2 kw3 : Kwargs)
    (fr : FmtRes) (dir path : String) (f : SFormat)
    (htr : truthy (resolveCachedir deco arg0 kw).1 = true)
    (hrp : resolvePops deco (resolveCachedir deco arg0 kw).2 = (r, kw2))
    (hnc : r.no_caching = false)
    (hfr : resolveFmt deco kw2 = (fr, kw3))
    (hdir : (resolveCachedir deco arg0 kw).1.getD "" = dir)
    (hpath : resolvedPath mname r fr dir = path)
    (hf : chooseFormat fr.format = .ok f)
    (hdom : writeDomain f (method kw3) = true) :
    (method_wrapper deco mname method arg0 kw fs0 .succeeds).executed =
      !((fs0.files.lookup path).isSome && !r.invalidate) ∧
    (∀ c, fs0.files.lookup path = some c → r.invalidate = false →
      (method_wrapper deco mname method arg0 kw fs0 .succeeds).result =
        (readWith f c fr.compression).map r.cbHit ∧
      (method_wrapper deco mname method arg0 kw fs0 .succeeds).executed = false ∧
      (method_wrapper deco mname method arg0 kw fs0 .succeeds).fs.files = fs0.files) ∧
    (fs0.files.lookup path = Option.none → r.invalidate = false →
      (method_wrapper deco mname method arg0 kw fs0 .succeeds).executed = true ∧
      (method_wrapper deco mname method arg0 kw
          (method_wrapper deco mname method arg0 kw fs0 .succeeds).fs .succeeds).executed =
        false ∧
      (method_wrapper deco mname method arg0 kw
          (method_wrapper deco mname method arg0 kw fs0 .succeeds).fs .succeeds).result =
        .ok (r.cbHit (method kw3))) ∧
    ((fs0.files.lookup path).isSome = true → r.invalidate = true →
      (method_wrapper deco mname method arg0 kw fs0 .succeeds).executed = true ∧
      (method_wrapper deco mname method arg0 kw fs0 .succeeds).fs.files.lookup path =
        some (encodeContent fr.compression (dumpVal (method kw3))) ∧
      (method_wrapper deco mname method arg0 kw fs0 .succeeds).result =
        .ok (r.cbMiss (method kw3))) := by
  have hfiles := mkdirFS_files dir fs0
  have hmwA : ∀ (fsX : FS) (attX : WAttempt),
      method_wrapper deco mname method arg0 kw fsX attX =
        hitOrMiss method r fr kw3 deco.quiet path (mkdirFS dir fsX) (mkdirMsgs dir fsX) attX :=
    fun fsX attX => method_wrapper_resolved deco mname method arg0 kw r kw2 fr kw3 dir path
      fsX attX htr hrp hnc hfr hdir hpath
  refine ⟨?_, ?_, ?_, ?_⟩
  · rw [hmwA]
    cases hcond : (fs0.files.lookup path).isSome && !r.invalidate
    · rw [hitOrMiss_miss method r fr kw3 deco.quiet path (mkdirFS dir fs0) (mkdirMsgs dir fs0)
        .succeeds (by rw [hfiles]; exact hcond)]
      rw [(missPath_executed method r fr kw3 deco.quiet path (mkdirFS dir fs0)
        (mkdirMsgs dir fs0) .succeeds).1]
      rfl
    · rw [(hitOrMiss_hit_not_executed method r fr kw3 deco.quiet path (mkdirFS dir fs0)
        (mkdirMsgs dir fs0) .succeeds (by rw [hfiles]; exact hcond)).1]
      rfl
  · intro c hc hinv
    rw [hmwA, hitOrMiss_hit method r fr kw3 deco.quiet path (mkdirFS dir fs0)
      (mkdirMsgs dir fs0) .succeeds c f (by rw [hfiles]; exact hc) hinv hf]
    exact ⟨rfl, rfl, hfiles⟩
  · intro hnof hinv
    have hcond1 : (((mkdirFS dir fs0).files.lookup path).isSome && !r.invalidate) = false := by
      rw [hfiles, hnof]
      rfl
    have hfirst : method_wrapper deco mname method arg0 kw fs0 .succeeds =
        { result := .ok (r.cbMiss (method kw3)),
          fs := { mkdirFS dir fs0 with files := storeFile fs0.files path (encodeContent fr.compression (dumpVal (method kw3))) },
          executed := true,
          msgs := mkdirMsgs dir fs0 ++ (if deco.quiet then [] else [generatingMsg path]),
          calledWith := some kw3 } := by
      rw [hmwA fs0 .succeeds, hitOrMiss_miss method r fr kw3 deco.quiet path (mkdirFS dir fs0)
        (mkdirMsgs dir fs0) .succeeds hcond1,
        missPath_ok method r fr kw3 deco.quiet path (mkdirFS dir fs0) (mkdirMsgs dir fs0) f
          hf hdom, hfiles]
    have hsnd : ∀ fs1 : FS,
        fs1.files.lookup path = some (encodeContent fr.compression (dumpVal (method kw3))) →
        fs1.dirs.contains dir = true →
        (method_wrapper deco mname method arg0 kw fs1 .succeeds).executed = false ∧
        (method_wrapper deco mname method arg0 kw fs1 .succeeds).result =
          .ok (r.cbHit (method kw3)) := by
      intro fs1 h1 h2
      rw [hmwA fs1 .succeeds, mkdirFS_idem dir fs1 h2,
        hitOrMiss_hit method r fr kw3 deco.quiet path fs1 (mkdirMsgs dir fs1) .succeeds
          (encodeContent fr.compression (dumpVal (method kw3))) f h1 hinv hf]
      refine ⟨rfl, ?_⟩
      show (readWith f (encodeContent fr.compression (dumpVal (method kw3)))
        fr.compression).map r.cbHit = .ok (r.cbHit (method kw3))
      rw [readWith_encode f fr.compression (method kw3) hdom]
      rfl
    have h1 : (method_wrapper deco mname method arg0 kw fs0 .succeeds).fs.files.lookup path =
        some (encodeContent fr.compression (dumpVal (method kw3))) := by
      rw [hfirst]
      exact lookup_storeFile fs0.files path _
    have h2 : (method_wrapper deco mname method arg0 kw fs0 .succeeds).fs.dirs.contains dir =
        true := by
      rw [hfirst]
      exact mkdirFS_contains dir fs0
    refine ⟨?_, (hsnd _ h1 h2).1, (hsnd _ h1 h2).2⟩
    rw [hfirst]
  · intro hsome hinv
    have hcond2 : (((mkdirFS dir fs0).files.lookup path).isSome && !r.invalidate) = false := by
      rw [hfiles, hsome, hinv]
      rfl
    rw [hmwA fs0 .succeeds, hitOrMiss_miss method r fr kw3 deco.quiet path (mkdirFS dir fs0)
      (mkdirMsgs dir fs0) .succeeds hcond2,
      missPath_ok method r fr kw3 deco.quiet path (mkdirFS dir fs0) (mkdirMsgs dir fs0) f
        hf hdom]
    refine ⟨rfl, ?_, rfl⟩
    exact lookup_storeFile (mkdirFS dir fs0).files path _

theorem C1_hit_miss_semantics_witness :
    (method_wrapper { cachedir := some "d" } "f" (fun _ => PyData.int 5) Option.none {}
        ⟨[], []⟩ .succeeds).executed = true ∧
    (method_wrapper { cachedir := some "d" } "f" (fun _ => PyData.int 5) Option.none {}
        (method_wrapper { cachedir := some "d" } "f" (fun _ => PyData.int 5) Option.none {}
          ⟨[], []⟩ .succeeds).fs .succeeds).executed = false ∧
    (method_wrapper { cachedir := some "d" } "f" (fun _ => PyData.int 5) Option.none {}
        (method_wrapper { cachedir := some "d" } "f" (fun _ => PyData.int 5) Option.none {}
          ⟨[], []⟩ .succeeds).fs .succeeds).result = .ok (PyData.int 5) := by
  have h := C1_hit_miss_semantics { cachedir := some "d" } "f" (fun _ => PyData.int 5)
    Option.none {} ⟨[], []⟩
    { invalidate := false, no_caching := false, cache_name := Option.none,
      cache_comment := some "", cbMiss := id, cbHit := id } {} {}
    { cache_ext := Option.none, compression := true, format := some "json" }
    "d" "d/f.cache.json.gzip" .json rfl rfl rfl rfl rfl rfl rfl (by decide)
  exact h.2.2.1 rfl rfl

/-- C3: with miss callback `r.cbMiss` and hit callback `r.cbHit`, the
first (miss) call returns the miss callback applied to the raw result of
the wrapped method, while the persisted cache file holds the
serialization of the unprocessed raw result — reading it back yields the
raw value, not its miss-callback image — and the subsequent (hit) call
returns the hit callback applied to that same raw value. -/
theorem C3_callback_asymmetry (deco : DecoConfig) (mname : String) (method : Kwargs → PyData)
    (arg0 : Option (Option String)) (kw : Kwargs) (fs0 : FS) (r : Resolved) (kw2 kw3 : Kwargs)
    (fr : FmtRes) (dir path : String) (f : SFormat)
    (htr : truthy (resolveCachedir deco arg0 kw).1 = true)
    (hrp : resolvePops deco (resolveCachedir deco arg0 kw).2 = (r, kw2))
    (hnc : r.no_caching = false)
    (hfr : resolveFmt deco kw2 = (fr, kw3))
    (hdir : (resolveCachedir deco arg0 kw).1.getD "" = dir)
    (hpath : resolvedPath mname r fr dir = path)
    (hf : chooseFormat fr.format = .ok f)
    (hdom : writeDomain f (method kw3) = true)
    (hnof : fs0.files.lookup path = Option.none)
    (hinv : r.invalidate = false) :
    (method_wrapper deco mname method arg0 kw fs0 .succeeds).result =
      .ok (r.cbMiss (method kw3)) ∧
    (method_wrapper deco mname method arg0 kw fs0 .succeeds).fs.files.lookup path =
      some (encodeContent fr.compression (dumpVal (method kw3))) ∧
    readWith f (encodeContent fr.compression (dumpVal (method kw3))) fr.compression =
      .ok (method kw3) ∧
    (method_wrapper deco mname method arg0 kw
        (method_wrapper deco mname method arg0 kw fs0 .succeeds).fs .succeeds).result =
      .ok (r.cbHit (method kw3)) := by
  have hfiles := mkdirFS_files dir fs0
  have hmwA : ∀ (fsX : FS) (attX : WAttempt),
      method_wrapper deco mname method arg0 kw fsX attX =
        hitOrMiss method r fr kw3 deco.quiet path (mkdirFS dir fsX) (mkdirMsgs dir fsX) attX :=
    fun fsX attX => method_wrapper_resolved deco mname method arg0 kw r kw2 fr kw3 dir path
      fsX attX htr hrp hnc hfr hdir hpath
  have hcond1 : (((mkdirFS dir fs0).files.lookup path).isSome && !r.invalidate) = false := by
    rw [hfiles, hnof]
    rfl
  have hfirst : method_wrapper deco mname method arg0 kw fs0 .succeeds =
      { result := .ok (r.cbMiss (method kw3)),
        fs := { mkdirFS dir fs0 with files := storeFile fs0.files path (encodeContent fr.compression (dumpVal (method kw3))) },
        executed := true,
        msgs := mkdirMsgs dir fs0 ++ (if deco.quiet then [] else [generatingMsg path]),
        calledWith := some kw3 } := by
    rw [hmwA fs0 .succeeds, hitOrMiss_miss method r fr kw3 deco.quiet path (mkdirFS dir fs0)
      (mkdirMsgs dir fs0) .succeeds hcond1,
      missPath_ok method r fr kw3 deco.quiet path (mkdirFS dir fs0) (mkdirMsgs dir fs0) f
        hf hdom, hfiles]
  have h1 : (method_wrapper deco mname method arg0 kw fs0 .succeeds).fs.files.lookup path =
      some (encodeContent fr.compression (dumpVal (method kw3))) := by
    rw [hfirst]
    exact lookup_storeFile fs0.files path _
  have h2 : (method_wrapper deco mname method arg0 kw fs0 .succeeds).fs.dirs.contains dir =
      true := by
    rw [hfirst]
    exact mkdirFS_contains dir fs0
  refine ⟨?_, h1, readWith_encode f fr.compression (method kw3) hdom, ?_⟩
  · rw [hfirst]
  · rw [hmwA ((method_wrapper deco mname method arg0 kw fs0 .succeeds).fs) .succeeds,
      mkdirFS_idem dir ((method_wrapper deco mname method arg0 kw fs0 .succeeds).fs) h2,
      hitOrMiss_hit method r fr kw3 deco.quiet path
        ((method_wrapper deco mname method arg0 kw fs0 .succeeds).fs)
        (mkdirMsgs dir ((method_wrapper deco mname method arg0 kw fs0 .succeeds).fs))
        .succeeds (encodeContent fr.compression (dumpVal (method kw3))) f h1 hinv hf]
    show (readWith f (encodeContent fr.compression (dumpVal (method kw3)))
      fr.compression).map r.cbHit = .ok (r.cbHit (method kw3))
    rw [readWith_encode f fr.compression (method kw3) hdom]
    rfl

theorem C3_callback_asymmetry_witness :
    (method_wrapper { cachedir := some "d" } "f" (fun _ => PyData.int 9) Option.none
        { callback_func_miss := some (fun _ => PyData.str "miss"),
          callback_func_hit := some (fun _ => PyData.str "hit") } ⟨[], []⟩
        .succeeds).result = .ok (PyData.str "miss") ∧
    (method_wrapper { cachedir := some "d" } "f" (fun _ => PyData.int 9) Option.none
        { callback_func_miss := some (fun _ => PyData.str "miss"),
          callback_func_hit := some (fun _ => PyData.str "hit") }
        (method_wrapper { cachedir := some "d" } "f" (fun _ => PyData.int 9) Option.none
          { callback_func_miss := some (fun _ => PyData.str "miss"),
            callback_func_hit := some (fun _ => PyData.str "hit") } ⟨[], []⟩
          .succeeds).fs .succeeds).result = .ok (PyData.str "hit") ∧
    readWith .json (encodeContent true (dumpVal (PyData.int 9))) true =
      .ok (PyData.int 9) := by
  have h := C3_callback_asymmetry { cachedir := some "d" } "f" (fun _ => PyData.int 9)
    Option.none
    { callback_func_miss := some (fun _ => PyData.str "miss"),
      callback_func_hit := some (fun _ => PyData.str "hit") } ⟨[], []⟩
    { invalidate := false, no_caching := false, cache_name := Option.none,
      cache_comment := some "", cbMiss := fun _ => PyData.str "miss",
      cbHit := fun _ => PyData.str "hit" } {} {}
    { cache_ext := Option.none, compression := true, format := some "json" }
    "d" "d/f.cache.json.gzip" .json rfl rfl rfl rfl rfl rfl rfl (by decide) rfl rfl
  exact ⟨h.1, h.2.2.2, h.2.2.1⟩
